import Mathlib

/-!
Verification development for the copy orchestration engine of
`pg_partialcopy` (file `pg_partialcopy.go`).

The Go program is shallowly embedded as pure Lean functions over an
oracle (`Env`) that supplies the outcome of every external effect
(database connections, SQL execution, subprocesses, the bulk COPY
streams).  Each Go function that the claims mention is translated to a
Lean function of the same name that returns, besides its result, a
trace of the external actions it performed, so that ordering and
abort-on-first-failure properties can be stated on the trace.

Machinery for the row streamer: `executeStep` (pg_partialcopy.go lines
200-249) starts two units of work joined by `errgroup.Group.Wait` that
share an `io.Pipe`:

  * the export unit runs `sourceConn.CopyTo(ctx, w, copyToSQL)` and
    unconditionally executes `defer w.Close()` - a plain close that
    delivers a cause-less EOF to the reader (it is not
    `CloseWithError`);
  * the import unit runs `destinationConn.CopyFrom(ctx, r, copyFromSQL)`;
    `CopyFrom` takes an `io.Reader`, so the import side has no way to
    close the pipe, and when the destination server rejects the COPY it
    stops consuming from `r` and returns the error.

`io.Pipe` is synchronous and unbuffered: every write rendezvouses with a
read, so the joint execution is deterministic given the two unit
behaviours; the only scheduling freedom is which error the errgroup
records first when both units fail, which is the `writerErrFirst`
parameter.  A unit behaviour is: the export produces a list of complete
protocol chunks and then either succeeds or fails
(`CopyToBehavior`), and the import either consumes the whole stream to
EOF and commits, or fails after applying a given number of chunks and
then stops consuming without closing the pipe (`CopyFromBehavior`).
Since the errgroup is constructed as `&errgroup.Group{}` (not
`errgroup.WithContext`) and the surrounding context is never cancelled,
an export blocked in a pipe write after the import has stopped consuming
is never unblocked: that execution never returns (`StreamOutcome.hang`).
-/

namespace PgPartialCopy

/-- The wrapping context of a `fmt.Errorf("...: %w", err)` call site in
pg_partialcopy.go.  Each constructor corresponds to one wrap site; the
step wrap carries the interpolated step index and table name. -/
inductive ErrCtx where
  | connectSource
  | beforeTxnSQL
  | startTxn
  | exportSnapshot
  | dumpStructure
  | prepareDest
  | loadStructure
  | connectDest
  | dropFK
  | step (idx : Nat) (tableName : String)
  | recreateFK
  | beforeCopySQL
  | afterCopySQL
  deriving DecidableEq, Repr

/-- The exact message text of each wrap site, as written in the Go
`fmt.Errorf` format strings (without the trailing `: %w`). -/
def ErrCtx.render : ErrCtx → String
  | .connectSource => "error connecting to source database"
  | .beforeTxnSQL => "error executing before transaction SQL"
  | .startTxn => "error starting transaction"
  | .exportSnapshot => "error exporting snapshot"
  | .dumpStructure => "error dumping structure from source"
  | .prepareDest => "error preparing destination"
  | .loadStructure => "error loading structure to destination"
  | .connectDest => "error connecting to destination database"
  | .dropFK => "error dropping foreign key constraints"
  | .step idx tableName => "error executing step " ++ toString idx ++ " (" ++ tableName ++ ")"
  | .recreateFK => "error recreating foreign key constraints"
  | .beforeCopySQL => "error executing before copy SQL"
  | .afterCopySQL => "error executing after copy SQL"

/-- A Go error value: either a leaf error (with its message) or a wrap
of a cause, as produced by `fmt.Errorf` with `%w`. -/
inductive GoErr where
  | base (msg : String)
  | wrap (ctx : ErrCtx) (cause : GoErr)
  deriving DecidableEq, Repr

/-- The rendered message of an error, matching Go's `err.Error()`. -/
def GoErr.message : GoErr → String
  | .base msg => msg
  | .wrap ctx cause => ctx.render ++ ": " ++ cause.message

/-- The outermost wrap site of an error, if it is a wrapped error. -/
def GoErr.outerCtx : GoErr → Option ErrCtx
  | .base _ => none
  | .wrap ctx _ => some ctx

/-- `Step` from pg_partialcopy.go (lines 32-37). -/
structure Step where
  TableName : String
  SelectSQL : String
  BeforeCopySQL : String
  AfterCopySQL : String
  deriving DecidableEq, Repr

/-- `ConfigSource` from pg_partialcopy.go (lines 22-25). -/
structure ConfigSource where
  DatabaseURL : String
  BeforeTransactionSQL : String
  deriving DecidableEq, Repr

/-- `ConfigDestination` from pg_partialcopy.go (lines 27-30). -/
structure ConfigDestination where
  PrepareCommand : String
  DatabaseURL : String
  deriving DecidableEq, Repr

/-- `Config` from pg_partialcopy.go (lines 16-20). -/
structure Config where
  Source : ConfigSource
  Destination : ConfigDestination
  Steps : List Step
  deriving DecidableEq, Repr

/-- Result of a `pgconn` query read: the rows (each row a list of
column values) and the error, mirroring `pgconn.Result`. -/
structure PgResult where
  Rows : List (List String)
  Err : Option GoErr
  deriving DecidableEq, Repr

/-- Behaviour of `sourceConn.CopyTo` for one invocation: the complete
protocol chunks it writes into the pipe, in order, and the value it
then returns (`none` = success, `some e` = it fails after having
written `chunks`). -/
structure CopyToBehavior where
  chunks : List String
  err : Option GoErr
  deriving DecidableEq, Repr

/-- Behaviour of `destinationConn.CopyFrom` for one invocation.
`failAfter = some (m, e)`: the destination fails the COPY after `m`
chunks have been applied, `CopyFrom` returns `e` and stops consuming
from the pipe (it cannot close it - it only holds an `io.Reader`).
`failAfter = none`: the import consumes the stream to EOF and the COPY
commits everything it consumed. -/
structure CopyFromBehavior where
  failAfter : Option (Nat × GoErr)
  deriving DecidableEq, Repr

/-- The oracle answering every external effect performed by
`pgPartialCopy` and its helpers.  Each field models one call site. -/
structure Env where
  /-- outcome of `pgconn.Connect(ctx, config.Source.DatabaseURL)` -/
  connectSource : Option GoErr
  /-- outcome of `sourceConn.Exec(ctx, sql).Close()` for the before-transaction SQL -/
  execSourceSQL : String → Option GoErr
  /-- outcome of the `begin isolation level serializable read only deferrable` command -/
  beginTxn : Option GoErr
  /-- result of `select pg_export_snapshot()` -/
  exportSnapshot : PgResult
  /-- outcome of `pg_dump --snapshot <id> --schema-only --no-owner --no-privileges <url>` -/
  pgDump : String → String → Except GoErr String
  /-- outcome of `sh -c <prepare_command>` -/
  runPrepare : String → Option GoErr
  /-- outcome of `psql --no-psqlrc <url>` fed the structure SQL -/
  loadStructure : String → String → Option GoErr
  /-- outcome of `pgconn.Connect(ctx, config.Destination.DatabaseURL)` -/
  connectDestination : Option GoErr
  /-- result of the foreign-key catalog query on the destination -/
  fkConstraintRows : Except GoErr (List (List String))
  /-- outcome of executing a SQL command on the destination connection -/
  destExec : String → Option GoErr
  /-- behaviour of `sourceConn.CopyTo` for a given COPY TO command -/
  sourceCopyTo : String → CopyToBehavior
  /-- behaviour of `destinationConn.CopyFrom` for a given COPY FROM command -/
  destCopyFrom : String → CopyFromBehavior
  /-- when both streaming units fail, whether the errgroup records the export unit's error first -/
  writerErrFirst : Bool

/-- Terminal state of one of the two streaming units of work. -/
inductive UnitOutcome where
  | ok
  | err (e : GoErr)
  | blocked
  deriving DecidableEq, Repr

/-- Terminal state of the export unit (the `g.Go` closure running
`sourceConn.CopyTo` then `defer w.Close()`, lines 210-225): it blocks
forever when the import stops consuming while chunks remain. -/
def writerOutcome (wb : CopyToBehavior) (rb : CopyFromBehavior) : UnitOutcome :=
  match rb.failAfter with
  | none =>
    match wb.err with
    | none => .ok
    | some e => .err e
  | some (m, _) =>
    if m < wb.chunks.length then .blocked
    else
      match wb.err with
      | none => .ok
      | some e => .err e

/-- Terminal state of the import unit (the `g.Go` closure running
`destinationConn.CopyFrom`, lines 227-235). -/
def readerOutcome (wb : CopyToBehavior) (rb : CopyFromBehavior) : UnitOutcome :=
  match rb.failAfter with
  | none => .ok
  | some (m, f) => if wb.chunks.length < m then .ok else .err f

/-- The first non-nil error recorded by `errgroup.Group.Wait` given the
two unit outcomes; when both units fail the recording order is the
scheduling parameter `writerErrFirst`. -/
def firstError (w r : UnitOutcome) (writerErrFirst : Bool) : Option GoErr :=
  match w, r with
  | .err e, .err f => some (if writerErrFirst then e else f)
  | .err e, _ => some e
  | _, .err f => some f
  | _, _ => none

/-- Joint outcome of the streaming phase of `executeStep` (lines
208-239): result of `g.Wait()` together with the chunks the destination
COPY committed, or `hang` when `g.Wait()` never returns. -/
inductive StreamOutcome where
  | ok (committed : List String)
  | err (e : GoErr) (committed : List String)
  | hang
  deriving DecidableEq, Repr

/-- Deterministic execution of the two pipe-coupled units (lines
208-239).  Case analysis: the import either never fails (consumes to
the cause-less EOF produced by `defer w.Close()` and commits all
chunks), or fails after `m` chunks: if the export stream is shorter
than `m` the failure point is never reached and the import commits the
prefix it consumed; if exactly `m`, both units terminate, the import
fails and commits nothing; if longer, the import stops consuming, the
pipe is never closed with any cause, the export blocks forever in a
pipe write and `g.Wait()` never returns. -/
def runStream (wb : CopyToBehavior) (rb : CopyFromBehavior) (writerErrFirst : Bool) :
    StreamOutcome :=
  match rb.failAfter with
  | none =>
    match wb.err with
    | none => .ok wb.chunks
    | some e => .err e wb.chunks
  | some (m, f) =>
    if wb.chunks.length < m then
      match wb.err with
      | none => .ok wb.chunks
      | some e => .err e wb.chunks
    else if wb.chunks.length = m then
      match wb.err with
      | none => .err f []
      | some e => .err (if writerErrFirst then e else f) []
    else .hang

/-- Which call site of `destinationConn.Exec` inside `executeStep`
produced an event. -/
inductive SQLSlot where
  | beforeCopy
  | afterCopy
  deriving DecidableEq, Repr

/-- One external action performed by `executeStep`. -/
inductive StepEvent where
  | execSQL (slot : SQLSlot) (sql : String) (outcome : Option GoErr)
  | streamCopy (copyToSQL copyFromSQL : String) (outcome : StreamOutcome)
  deriving DecidableEq, Repr

/-- Position of an event in a step's pre-copy / stream / post-copy
sequence. -/
def StepEvent.phase : StepEvent → Nat
  | .execSQL .beforeCopy _ _ => 0
  | .streamCopy _ _ _ => 1
  | .execSQL .afterCopy _ _ => 2

/-- Chunks that the destination COPY of an event committed. -/
def StepEvent.committed : StepEvent → List String
  | .streamCopy _ _ (.ok c) => c
  | .streamCopy _ _ (.err _ c) => c
  | _ => []

/-- All chunks committed to the destination table during a step trace. -/
def committedRows (tr : List StepEvent) : List String :=
  tr.foldr (fun ev acc => ev.committed ++ acc) []

/-- Result of `executeStep`: Go's `error` return, plus `hang` for the
execution in which `g.Wait()` never returns. -/
inductive StepResult where
  | ok
  | err (e : GoErr)
  | hang
  deriving DecidableEq, Repr

/-- The COPY TO command built at pg_partialcopy.go lines 213-218: a
parenthesized sub-query export when `select_sql` is set, otherwise a
direct full-table export naming the step's (destination) table name. -/
def stepCopyToSQL (step : Step) : String :=
  if step.SelectSQL ≠ "" then "copy (" ++ step.SelectSQL ++ ") to stdout"
  else "copy " ++ step.TableName ++ " to stdout"

/-- The COPY FROM command built at pg_partialcopy.go line 228: always
the step's destination table name, appended to via stdin. -/
def stepCopyFromSQL (step : Step) : String :=
  "copy " ++ step.TableName ++ " from stdin"

/-- The joint outcome of the step's two streaming units. -/
def stepStreamOutcome (env : Env) (step : Step) : StreamOutcome :=
  runStream (env.sourceCopyTo (stepCopyToSQL step)) (env.destCopyFrom (stepCopyFromSQL step))
    env.writerErrFirst

/-- The `after_copy_sql` part of `executeStep` (lines 241-246). -/
def stepAfterPart (env : Env) (step : Step) : List StepEvent × StepResult :=
  if step.AfterCopySQL ≠ "" then
    match env.destExec step.AfterCopySQL with
    | some e =>
      ([.execSQL .afterCopy step.AfterCopySQL (some e)], .err (.wrap .afterCopySQL e))
    | none => ([.execSQL .afterCopy step.AfterCopySQL none], .ok)
  else ([], .ok)

/-- `executeStep` from the streaming phase onward (lines 208-248):
the concurrent COPY TO / COPY FROM pair joined by `g.Wait()`, then the
`after_copy_sql` part, aborting on the first error.  `pre` is the trace
of the already-executed `before_copy_sql` part. -/
def executeStepFromStream (env : Env) (step : Step) (pre : List StepEvent) :
    List StepEvent × StepResult :=
  let streamOut := stepStreamOutcome env step
  let tr := pre ++ [StepEvent.streamCopy (stepCopyToSQL step) (stepCopyFromSQL step) streamOut]
  match streamOut with
  | .hang => (tr, .hang)
  | .err e _ => (tr, .err e)
  | .ok _ =>
    match stepAfterPart env step with
    | (atr, ares) => (tr ++ atr, ares)

/-- `executeStep` from pg_partialcopy.go (lines 200-249): execute
`before_copy_sql` if present, then the concurrent COPY TO / COPY FROM
pair joined by `g.Wait()`, then `after_copy_sql` if present, aborting
on the first error.  Returns the trace of external actions and the
result. -/
def executeStep (env : Env) (step : Step) : List StepEvent × StepResult :=
  if step.BeforeCopySQL ≠ "" then
    match env.destExec step.BeforeCopySQL with
    | some e =>
      ([.execSQL .beforeCopy step.BeforeCopySQL (some e)], .err (.wrap .beforeCopySQL e))
    | none =>
      executeStepFromStream env step [StepEvent.execSQL .beforeCopy step.BeforeCopySQL none]
  else executeStepFromStream env step []

/-- The foreign-key catalog query issued by `dropForeignKeyConstraints`
(pg_partialcopy.go line 164), verbatim. -/
def fkConstraintQuerySQL : String :=
  "select conrelid::regclass as table_name, conname as constraint_name, pg_get_constraintdef(oid) constraint_definition from pg_constraint where contype = 'f'"

deriving instance DecidableEq for Except

/-- One external action performed by `dropForeignKeyConstraints` or
`recreateForeignKeyConstraints`. -/
inductive FKEvent where
  | query (sql : String) (outcome : Except GoErr (List (List String)))
  | exec (sql : String) (outcome : Option GoErr)
  deriving DecidableEq, Repr

/-- The `alter table ... drop constraint ...` command built at
pg_partialcopy.go line 178. -/
def dropConstraintSQL (tableName constraintName : String) : String :=
  "alter table " ++ tableName ++ " drop constraint " ++ constraintName

/-- The `alter table ... add constraint ...` recreate command built at
pg_partialcopy.go line 184, from the captured definition text. -/
def addConstraintSQL (tableName constraintName constraintDefinition : String) : String :=
  "alter table " ++ tableName ++ " add constraint " ++ constraintName ++ " " ++
    constraintDefinition

/-- Indexing into a list of strings (Go's `row[i]`, with `""` for an
out-of-range index). -/
def strAt (row : List String) (i : Nat) : String :=
  row.getD i ""

/-- The loop body of `dropForeignKeyConstraints` (lines 173-185): for
each catalog row, in order, drop the constraint and append its recreate
command; the first drop error aborts, discarding the commands (Go
returns `nil, err`). -/
def dropLoop (env : Env) : List (List String) → List FKEvent × Except GoErr (List String)
  | [] => ([], .ok [])
  | row :: rest =>
    let tableName := strAt row 0
    let constraintName := strAt row 1
    let constraintDefinition := strAt row 2
    let dropSQL := dropConstraintSQL tableName constraintName
    match env.destExec dropSQL with
    | some e => ([.exec dropSQL (some e)], .error e)
    | none =>
      match dropLoop env rest with
      | (tr, .error e) => (.exec dropSQL none :: tr, .error e)
      | (tr, .ok cmds) =>
        (.exec dropSQL none :: tr,
         .ok (addConstraintSQL tableName constraintName constraintDefinition :: cmds))

/-- `dropForeignKeyConstraints` from pg_partialcopy.go (lines 161-188):
query the catalog for every foreign-key constraint, then drop each in
discovery order, returning the recreate commands. -/
def dropForeignKeyConstraints (env : Env) : List FKEvent × Except GoErr (List String) :=
  match env.fkConstraintRows with
  | .error e => ([.query fkConstraintQuerySQL (.error e)], .error e)
  | .ok rows =>
    match dropLoop env rows with
    | (tr, res) => (.query fkConstraintQuerySQL (.ok rows) :: tr, res)

/-- `recreateForeignKeyConstraints` from pg_partialcopy.go (lines
190-198): execute each recreate command in order, returning the first
error. -/
def recreateForeignKeyConstraints (env : Env) : List String → List FKEvent × Option GoErr
  | [] => ([], none)
  | cmd :: rest =>
    match env.destExec cmd with
    | some e => ([.exec cmd (some e)], some e)
    | none =>
      match recreateForeignKeyConstraints env rest with
      | (tr, res) => (.exec cmd none :: tr, res)

/-- `prepareDestination` from pg_partialcopy.go (lines 147-153): a no-op
when no prepare command is configured, otherwise run it with `sh -c`. -/
def prepareDestination (env : Env) (configDestination : ConfigDestination) : Option GoErr :=
  if configDestination.PrepareCommand = "" then none
  else env.runPrepare configDestination.PrepareCommand

/-- One phase-level external action performed by `pgPartialCopy`.  The
constraint and step phases carry their own sub-traces. -/
inductive RunEvent where
  | connectSource (outcome : Option GoErr)
  | beforeTxnSQL (sql : String) (outcome : Option GoErr)
  | beginTxn (outcome : Option GoErr)
  | exportSnapshot (result : PgResult)
  | dumpStructure (databaseURL snapshotID : String) (outcome : Except GoErr String)
  | prepareDest (cmd : String) (outcome : Option GoErr)
  | loadStructure (databaseURL structureSQL : String) (outcome : Option GoErr)
  | connectDest (outcome : Option GoErr)
  | dropFK (trace : List FKEvent) (outcome : Except GoErr (List String))
  | runStep (idx : Nat) (tableName : String) (trace : List StepEvent) (outcome : StepResult)
  | recreateFK (trace : List FKEvent) (outcome : Option GoErr)
  deriving DecidableEq, Repr

/-- Result of `pgPartialCopy`: Go's `error` return, plus `hang` for the
execution in which a step's `g.Wait()` never returns. -/
inductive RunResult where
  | ok
  | err (e : GoErr)
  | hang
  deriving DecidableEq, Repr

/-- The step loop of `pgPartialCopy` (lines 120-126): execute the steps
in configured order, wrapping the first failure with the step index and
table name. -/
def runSteps (env : Env) (idx : Nat) : List Step → List RunEvent × RunResult
  | [] => ([], .ok)
  | step :: rest =>
    match executeStep env step with
    | (tr, .ok) =>
      match runSteps env (idx + 1) rest with
      | (tr2, r2) => (.runStep idx step.TableName tr .ok :: tr2, r2)
    | (tr, .err e) =>
      ([.runStep idx step.TableName tr (.err e)],
       .err (.wrap (.step idx step.TableName) e))
    | (tr, .hang) => ([.runStep idx step.TableName tr .hang], .hang)

/-- The tail of `pgPartialCopy` from the `begin` command onward
(pg_partialcopy.go lines 74-134): begin the serializable read-only
deferrable transaction, export the snapshot, dump structure, prepare
the destination, load structure, connect to the destination, drop the
foreign-key constraints, run the steps, recreate the constraints.
Every failure is wrapped with its phase context and returned
immediately. -/
def snapshotIDOf (rows : List (List String)) : String :=
  (rows.headD []).headD ""

def pgPartialCopyCore (env : Env) (config : Config) : List RunEvent × RunResult :=
  match env.beginTxn with
  | some e => ([.beginTxn (some e)], .err (.wrap .startTxn e))
  | none =>
  let t3 : List RunEvent := [.beginTxn none]
  let snapRes := env.exportSnapshot
  match snapRes.Err with
  | some e => (t3 ++ [.exportSnapshot snapRes], .err (.wrap .exportSnapshot e))
  | none =>
  let t4 := t3 ++ [RunEvent.exportSnapshot snapRes]
  if snapRes.Rows.length ≠ 1 then
    (t4, .err (.base ("expected one row from pg_export_snapshot, got " ++
      toString snapRes.Rows.length)))
  else
  let snapshotID := snapshotIDOf snapRes.Rows
  match env.pgDump config.Source.DatabaseURL snapshotID with
  | .error e =>
    (t4 ++ [.dumpStructure config.Source.DatabaseURL snapshotID (.error e)],
     .err (.wrap .dumpStructure e))
  | .ok structureSQL =>
  let t5 := t4 ++ [RunEvent.dumpStructure config.Source.DatabaseURL snapshotID (.ok structureSQL)]
  match prepareDestination env config.Destination with
  | some e =>
    (t5 ++ [.prepareDest config.Destination.PrepareCommand (some e)],
     .err (.wrap .prepareDest e))
  | none =>
  let t6 := t5 ++ [RunEvent.prepareDest config.Destination.PrepareCommand none]
  match env.loadStructure config.Destination.DatabaseURL structureSQL with
  | some e =>
    (t6 ++ [.loadStructure config.Destination.DatabaseURL structureSQL (some e)],
     .err (.wrap .loadStructure e))
  | none =>
  let t7 := t6 ++ [RunEvent.loadStructure config.Destination.DatabaseURL structureSQL none]
  match env.connectDestination with
  | some e => (t7 ++ [.connectDest (some e)], .err (.wrap .connectDest e))
  | none =>
  let t8 := t7 ++ [RunEvent.connectDest none]
  match dropForeignKeyConstraints env with
  | (fkTr, .error e) => (t8 ++ [.dropFK fkTr (.error e)], .err (.wrap .dropFK e))
  | (fkTr, .ok recreateCommands) =>
  let t9 := t8 ++ [RunEvent.dropFK fkTr (.ok recreateCommands)]
  match runSteps env 0 config.Steps with
  | (stepsTr, .err e) => (t9 ++ stepsTr, .err e)
  | (stepsTr, .hang) => (t9 ++ stepsTr, .hang)
  | (stepsTr, .ok) =>
  let t10 := t9 ++ stepsTr
  match recreateForeignKeyConstraints env recreateCommands with
  | (rcTr, some e) => (t10 ++ [.recreateFK rcTr (some e)], .err (.wrap .recreateFK e))
  | (rcTr, none) => (t10 ++ [.recreateFK rcTr none], .ok)

/-- `pgPartialCopy` from pg_partialcopy.go (lines 59-135): connect to
the source, execute the optional before-transaction SQL, then run the
phases of `pgPartialCopyCore`. -/
def pgPartialCopy (env : Env) (config : Config) : List RunEvent × RunResult :=
  match env.connectSource with
  | some e => ([.connectSource (some e)], .err (.wrap .connectSource e))
  | none =>
  let btsql := config.Source.BeforeTransactionSQL
  if btsql ≠ "" then
    match env.execSourceSQL btsql with
    | some e =>
      ([.connectSource none, .beforeTxnSQL btsql (some e)], .err (.wrap .beforeTxnSQL e))
    | none =>
      match pgPartialCopyCore env config with
      | (tr, res) => (.connectSource none :: .beforeTxnSQL btsql none :: tr, res)
  else
    match pgPartialCopyCore env config with
    | (tr, res) => (.connectSource none :: tr, res)

/-- The phase a `RunEvent` belongs to. -/
inductive PhaseKind where
  | connectSource
  | beforeTxnSQL
  | beginTxn
  | exportSnapshot
  | dumpStructure
  | prepareDest
  | loadStructure
  | connectDest
  | dropFK
  | step (idx : Nat)
  | recreateFK
  deriving DecidableEq, Repr

/-- Phase of an event. -/
def RunEvent.kind : RunEvent → PhaseKind
  | .connectSource _ => .connectSource
  | .beforeTxnSQL _ _ => .beforeTxnSQL
  | .beginTxn _ => .beginTxn
  | .exportSnapshot _ => .exportSnapshot
  | .dumpStructure _ _ _ => .dumpStructure
  | .prepareDest _ _ => .prepareDest
  | .loadStructure _ _ _ => .loadStructure
  | .connectDest _ => .connectDest
  | .dropFK _ _ => .dropFK
  | .runStep idx _ _ _ => .step idx
  | .recreateFK _ _ => .recreateFK

/-- Whether an event's recorded outcome is a failure. -/
def RunEvent.failed : RunEvent → Bool
  | .connectSource o => o.isSome
  | .beforeTxnSQL _ o => o.isSome
  | .beginTxn o => o.isSome
  | .exportSnapshot r => r.Err.isSome || r.Rows.length != 1
  | .dumpStructure _ _ (.error _) => true
  | .dumpStructure _ _ (.ok _) => false
  | .prepareDest _ o => o.isSome
  | .loadStructure _ _ o => o.isSome
  | .connectDest o => o.isSome
  | .dropFK _ (.error _) => true
  | .dropFK _ (.ok _) => false
  | .runStep _ _ _ .ok => false
  | .runStep _ _ _ _ => true
  | .recreateFK _ o => o.isSome

/-- The full phase sequence of a successful `pgPartialCopyCore`. -/
def canonicalCorePhases (config : Config) : List PhaseKind :=
  [.beginTxn, .exportSnapshot, .dumpStructure, .prepareDest, .loadStructure, .connectDest,
   .dropFK] ++
  ((List.range config.Steps.length).map PhaseKind.step ++ [.recreateFK])

/-- The full phase sequence of a successful run, in the order of
pgPartialCopy's source text (the before-transaction SQL phase is
present exactly when configured). -/
def canonicalPhases (config : Config) : List PhaseKind :=
  [.connectSource] ++
  (if config.Source.BeforeTransactionSQL ≠ "" then [PhaseKind.beforeTxnSQL] else []) ++
  canonicalCorePhases config

/-- Trace of a core run through the snapshot export. -/
def coreT4 (env : Env) : List RunEvent :=
  [.beginTxn none, .exportSnapshot env.exportSnapshot]

/-- The snapshot identifier extracted at pg_partialcopy.go line 87:
the first column of the first row of the `pg_export_snapshot` result. -/
def coreSnapID (env : Env) : String :=
  snapshotIDOf env.exportSnapshot.Rows

/-- Trace of a core run through the structure dump. -/
def coreT5 (env : Env) (config : Config) (structureSQL : String) : List RunEvent :=
  coreT4 env ++
    [.dumpStructure config.Source.DatabaseURL (coreSnapID env) (.ok structureSQL)]

/-- Trace of a core run through the destination preparation. -/
def coreT6 (env : Env) (config : Config) (structureSQL : String) : List RunEvent :=
  coreT5 env config structureSQL ++ [.prepareDest config.Destination.PrepareCommand none]

/-- Trace of a core run through the structure load. -/
def coreT7 (env : Env) (config : Config) (structureSQL : String) : List RunEvent :=
  coreT6 env config structureSQL ++
    [.loadStructure config.Destination.DatabaseURL structureSQL none]

/-- Trace of a core run through the destination connection. -/
def coreT8 (env : Env) (config : Config) (structureSQL : String) : List RunEvent :=
  coreT7 env config structureSQL ++ [.connectDest none]

/-- Trace of a core run through the constraint drop. -/
def coreT9 (env : Env) (config : Config) (structureSQL : String) (fkTr : List FKEvent)
    (cmds : List String) : List RunEvent :=
  coreT8 env config structureSQL ++ [.dropFK fkTr (.ok cmds)]

/-- Constraints are left missing exactly when the outermost error wrap
is a step failure or the recreate failure; this is the decidable
discriminator an operator can apply to the reported error. -/
def constraintsMissingKind : Option ErrCtx → Bool
  | some (.step _ _) => true
  | some .recreateFK => true
  | _ => false

/-- The trace records a successful foreign-key drop phase. -/
def dropSucceeded (tr : List RunEvent) : Prop :=
  ∃ fkTr cmds, RunEvent.dropFK fkTr (.ok cmds) ∈ tr

/-- The trace records a completed (successful) recreate phase. -/
def recreateCompleted (tr : List RunEvent) : Prop :=
  ∃ rcTr, RunEvent.recreateFK rcTr none ∈ tr

/-- An oracle in which every external effect succeeds; concrete
scenarios below override individual fields. -/
def envBase : Env where
  connectSource := none
  execSourceSQL := fun _ => none
  beginTxn := none
  exportSnapshot := ⟨[["00000003-0000001B-1"]], none⟩
  pgDump := fun _ _ => .ok "create table a (id int);"
  runPrepare := fun _ => none
  loadStructure := fun _ _ => none
  connectDestination := none
  fkConstraintRows := .ok []
  destExec := fun _ => none
  sourceCopyTo := fun _ => ⟨[], none⟩
  destCopyFrom := fun _ => ⟨none⟩
  writerErrFirst := true

/-- A plain full-table step for table `a` (as in the repository's
`TestPgsubsetDefaultCopyAll`). -/
def stepA : Step := ⟨"a", "", "", ""⟩

/-- Scenario for C1: the destination import fails (e.g. a type
mismatch) after applying one chunk while the export still has a second
chunk to write. -/
def envImportFails : Env :=
  { envBase with
    sourceCopyTo := fun _ => ⟨["1\n", "2\n"], none⟩
    destCopyFrom := fun _ =>
      ⟨some (1, .base "ERROR: invalid input syntax for type integer")⟩ }

/-- Scenario for C2: the source export fails mid-stream after having
written one complete chunk into the pipe; the import never fails. -/
def envExportFails : Env :=
  { envBase with
    sourceCopyTo := fun _ => ⟨["1\n"], some (.base "read tcp: connection reset by peer")⟩ }

/-- Scenario config: one full-table step for `a`. -/
def configA : Config := ⟨⟨"dbname=src", ""⟩, ⟨"", "dbname=dst"⟩, [stepA]⟩

/-- Scenario for C6: the second recreate command fails. -/
def envRecreateFails : Env :=
  { envBase with
    destExec := fun sql =>
      if sql = "alter table b add constraint b_id_fkey foreign key (id) references a(id)"
      then some (.base "ERROR: relation a does not exist") else none }

/-- Scenario for C5: two foreign-key constraints in the destination
catalog. -/
def envTwoFKs : Env :=
  { envBase with
    fkConstraintRows := .ok
      [["b", "b_id_fkey", "foreign key (id) references a(id)"],
       ["c", "c_id_fkey", "foreign key (id) references b(id)"]] }

/-- Scenario for C9: step 0 fails during the stream. -/
def envStepFails : Env :=
  { envBase with
    destCopyFrom := fun _ => ⟨some (0, .base "ERROR: value too long")⟩ }

/-- Scenario for C10: `select pg_export_snapshot()` returns no rows. -/
def envNoSnapshotRow : Env :=
  { envBase with exportSnapshot := ⟨[], none⟩ }

/-- A step with both a pre-copy and a post-copy statement (as in the
temporary-table example of the repository's README). -/
def stepPrePost : Step :=
  ⟨"temp_people", "select p.* from people p", "create temporary table temp_people (like people)",
   "insert into people select * from temp_people"⟩

/-- C1: the claim says a failing unit unblocks the other promptly by
closing the shared pipe with the failure as its cause.  The code does
the opposite: (i) when the destination import fails after one chunk
while the export has a second chunk, nothing closes the pipe with an
error - the export unit stays blocked in its pipe write and
`executeStep` hangs instead of reporting the failure; (ii) when the
source export fails, `defer w.Close()` delivers a silent EOF, so
the import completes the partial stream (committing it) instead of
being stopped with the failure as cause. -/
theorem c1_failure_propagation_code_bug :
    (executeStep envImportFails stepA).2 = .hang ∧
    writerOutcome (envImportFails.sourceCopyTo "copy a to stdout")
      (envImportFails.destCopyFrom "copy a from stdin") = .blocked ∧
    runStream (envExportFails.sourceCopyTo "copy a to stdout")
      (envExportFails.destCopyFrom "copy a from stdin") true =
      .err (.base "read tcp: connection reset by peer") ["1\n"] :=
  ⟨rfl, rfl, rfl⟩

/-- C2: the claim says that when `executeStep` returns an error the
destination table received none of the step's rows.  When the source
export fails after writing one complete chunk, the plain `w.Close()`
makes the import see a normal EOF: the destination COPY commits the
partial row set even though `executeStep` returns the export error. -/
theorem c2_step_atomicity_code_bug :
    (executeStep envExportFails stepA).2 =
      .err (.base "read tcp: connection reset by peer") ∧
    committedRows (executeStep envExportFails stepA).1 = ["1\n"] :=
  ⟨rfl, rfl⟩

/-- C3: whenever the streaming phase of `executeStep` returns, it
succeeds iff both the export and the import unit succeeded, the
returned error is the first error the errgroup observed from either
unit, and both units have reached a terminal state (neither is still
blocked). -/
theorem c3_stream_join (wb : CopyToBehavior) (rb : CopyFromBehavior) (bit : Bool)
    (hterm : runStream wb rb bit ≠ .hang) :
    ((∃ c, runStream wb rb bit = .ok c) ↔
      writerOutcome wb rb = .ok ∧ readerOutcome wb rb = .ok) ∧
    (∀ e c, runStream wb rb bit = .err e c →
      firstError (writerOutcome wb rb) (readerOutcome wb rb) bit = some e) ∧
    writerOutcome wb rb ≠ .blocked ∧ readerOutcome wb rb ≠ .blocked := by
  rcases wb with ⟨chunks, werr⟩
  rcases rb with ⟨fa⟩
  rcases fa with _ | ⟨m, f⟩
  · rcases werr with _ | e <;>
      simp [runStream, writerOutcome, readerOutcome, firstError]
  · rcases Nat.lt_trichotomy chunks.length m with hlt | heq | hgt
    · have h1 : ¬ m < chunks.length := by omega
      rcases werr with _ | e <;>
        simp [runStream, writerOutcome, readerOutcome, firstError, hlt, h1]
    · have h1 : ¬ chunks.length < m := by omega
      have h2 : ¬ m < chunks.length := by omega
      rcases werr with _ | e <;>
        simp [runStream, writerOutcome, readerOutcome, firstError, heq, h1, h2]
    · exfalso
      apply hterm
      have h1 : ¬ chunks.length < m := by omega
      have h2 : ¬ chunks.length = m := by omega
      simp [runStream, h1, h2]

/-- Witness for C3 at a concrete successful stream. -/
theorem c3_stream_join_witness :
    ∃ c, runStream ⟨["row"], none⟩ ⟨none⟩ true = .ok c :=
  (c3_stream_join ⟨["row"], none⟩ ⟨none⟩ true (by decide)).1.mpr ⟨rfl, rfl⟩

/-- On success, the drop loop issues one drop per catalog row in
discovery order and returns one recreate command per row, built from
the captured row data. -/
theorem dropLoop_ok (env : Env) (rows : List (List String)) (cmds : List String)
    (h : (dropLoop env rows).2 = .ok cmds) :
    cmds = rows.map (fun row =>
      addConstraintSQL (strAt row 0) (strAt row 1) (strAt row 2)) ∧
    (dropLoop env rows).1 = rows.map (fun row =>
      FKEvent.exec (dropConstraintSQL (strAt row 0) (strAt row 1)) none) := by
  induction rows generalizing cmds with
  | nil =>
    simp only [dropLoop] at h ⊢
    simp only [Except.ok.injEq] at h
    simp [← h]
  | cons row rest ih =>
    rcases hd : env.destExec (dropConstraintSQL (strAt row 0) (strAt row 1)) with _ | e
    · rcases hrec : dropLoop env rest with ⟨tr, res⟩
      rcases res with e | cs
      · simp [dropLoop, hd, hrec] at h
      · obtain ⟨h1, h2⟩ := ih cs (by rw [hrec])
        rw [hrec] at h2
        simp only at h2
        simp only [dropLoop, hd, hrec] at h ⊢
        simp only [Except.ok.injEq] at h
        simp [← h, h1, h2]
    · simp [dropLoop, hd] at h

/-- C5: `dropForeignKeyConstraints` issues the foreign-key catalog
query (capturing table, name and full definition of every returned
constraint) before any drop, then drops each exact table/constraint
pair in discovery order, and on success returns, for every discovered
constraint, a recreate statement built from the originally captured
definition text. -/
theorem c5_drop_constraints (env : Env) (rows : List (List String)) (cmds : List String)
    (hq : env.fkConstraintRows = .ok rows)
    (hok : (dropForeignKeyConstraints env).2 = .ok cmds) :
    cmds = rows.map (fun row =>
      addConstraintSQL (strAt row 0) (strAt row 1) (strAt row 2)) ∧
    (dropForeignKeyConstraints env).1 =
      FKEvent.query fkConstraintQuerySQL (.ok rows) ::
        rows.map (fun row =>
          FKEvent.exec (dropConstraintSQL (strAt row 0) (strAt row 1)) none) := by
  rcases hdl : dropLoop env rows with ⟨tr, res⟩
  have hunf : dropForeignKeyConstraints env =
      (FKEvent.query fkConstraintQuerySQL (.ok rows) :: tr, res) := by
    simp [dropForeignKeyConstraints, hq, hdl]
  rw [hunf] at hok ⊢
  simp only at hok ⊢
  obtain ⟨h1, h2⟩ := dropLoop_ok env rows cmds (by rw [hdl]; exact hok)
  rw [hdl] at h2
  simp only at h2
  exact ⟨h1, by rw [h2]⟩

/-- Witness for C5 on a catalog with two foreign keys. -/
theorem c5_drop_constraints_witness :
    (dropForeignKeyConstraints envTwoFKs).1 =
      FKEvent.query fkConstraintQuerySQL (.ok
        [["b", "b_id_fkey", "foreign key (id) references a(id)"],
         ["c", "c_id_fkey", "foreign key (id) references b(id)"]]) ::
      [FKEvent.exec "alter table b drop constraint b_id_fkey" none,
       FKEvent.exec "alter table c drop constraint c_id_fkey" none] := by
  have h := c5_drop_constraints envTwoFKs
    [["b", "b_id_fkey", "foreign key (id) references a(id)"],
     ["c", "c_id_fkey", "foreign key (id) references b(id)"]]
    ["alter table b add constraint b_id_fkey foreign key (id) references a(id)",
     "alter table c add constraint c_id_fkey foreign key (id) references b(id)"]
    rfl rfl
  rw [h.2]
  rfl

/-- C6: `recreateForeignKeyConstraints` executes the captured recreate
commands in exactly the captured order; on success all are executed;
if execution fails at command `k`, every command before `k` was
executed successfully, the command at `k` failed, no later command was
attempted, and the first error is returned to the caller. -/
theorem c6_recreate_in_order (env : Env) (cmds : List String) :
    ((recreateForeignKeyConstraints env cmds).2 = none →
      (recreateForeignKeyConstraints env cmds).1 =
        cmds.map (fun c => FKEvent.exec c none)) ∧
    (∀ e, (recreateForeignKeyConstraints env cmds).2 = some e →
      ∃ k, k < cmds.length ∧
        (∀ j, j < k → env.destExec (strAt cmds j) = none) ∧
        env.destExec (strAt cmds k) = some e ∧
        (recreateForeignKeyConstraints env cmds).1 =
          (cmds.take k).map (fun c => FKEvent.exec c none) ++
            [FKEvent.exec (strAt cmds k) (some e)]) := by
  induction cmds with
  | nil => simp [recreateForeignKeyConstraints]
  | cons cmd rest ih =>
    rcases hd : env.destExec cmd with _ | e0
    · rcases hrec : recreateForeignKeyConstraints env rest with ⟨tr, res⟩
      have hunf : recreateForeignKeyConstraints env (cmd :: rest) =
          (FKEvent.exec cmd none :: tr, res) := by
        simp [recreateForeignKeyConstraints, hd, hrec]
      rw [hunf]
      obtain ⟨ihok, iherr⟩ := ih
      rw [hrec] at ihok iherr
      simp only at ihok iherr ⊢
      constructor
      · intro h
        simp [ihok h]
      · intro e h
        obtain ⟨k, hk, hbefore, hkerr, htr⟩ := iherr e h
        refine ⟨k + 1, by simp only [List.length_cons]; omega, ?_, ?_, ?_⟩
        · intro j hj
          cases j with
          | zero => simpa [strAt] using hd
          | succ j' =>
            have : strAt (cmd :: rest) (j' + 1) = strAt rest j' := by
              simp [strAt]
            rw [this]
            exact hbefore j' (by omega)
        · have : strAt (cmd :: rest) (k + 1) = strAt rest k := by
            simp [strAt]
          rw [this]
          exact hkerr
        · have h1 : strAt (cmd :: rest) (k + 1) = strAt rest k := by
            simp [strAt]
          rw [h1, List.take_succ_cons, List.map_cons, htr]
          simp
    · have hunf : recreateForeignKeyConstraints env (cmd :: rest) =
          ([FKEvent.exec cmd (some e0)], some e0) := by
        simp [recreateForeignKeyConstraints, hd]
      rw [hunf]
      simp only
      constructor
      · intro h
        simp at h
      · intro e h
        simp only [Option.some.injEq] at h
        refine ⟨0, by simp, ?_, ?_, ?_⟩
        · intro j hj
          exact absurd hj (by omega)
        · simpa [strAt, h] using hd
        · simp [strAt, h]

/-- Witness for C6 on a command list whose second command fails. -/
theorem c6_recreate_in_order_witness :
    ∃ k,
      k < (["alter table b add constraint b_pkey primary key (id)",
            "alter table b add constraint b_id_fkey foreign key (id) references a(id)"] :
              List String).length ∧
      (∀ j, j < k →
        envRecreateFails.destExec
          (strAt ["alter table b add constraint b_pkey primary key (id)",
                  "alter table b add constraint b_id_fkey foreign key (id) references a(id)"]
            j) = none) ∧
      envRecreateFails.destExec
        (strAt ["alter table b add constraint b_pkey primary key (id)",
                "alter table b add constraint b_id_fkey foreign key (id) references a(id)"]
          k) = some (.base "ERROR: relation a does not exist") ∧
      (recreateForeignKeyConstraints envRecreateFails
        ["alter table b add constraint b_pkey primary key (id)",
         "alter table b add constraint b_id_fkey foreign key (id) references a(id)"]).1 =
        ((["alter table b add constraint b_pkey primary key (id)",
           "alter table b add constraint b_id_fkey foreign key (id) references a(id)"] :
             List String).take k).map (fun c => FKEvent.exec c none) ++
          [FKEvent.exec
            (strAt ["alter table b add constraint b_pkey primary key (id)",
                    "alter table b add constraint b_id_fkey foreign key (id) references a(id)"]
              k) (some (.base "ERROR: relation a does not exist"))] :=
  (c6_recreate_in_order envRecreateFails
    ["alter table b add constraint b_pkey primary key (id)",
     "alter table b add constraint b_id_fkey foreign key (id) references a(id)"]).2
    (.base "ERROR: relation a does not exist") (by decide)

/-- The step loop records one `runStep` event per attempted step, with
consecutive indices starting at `idx`; it attempts at most the
configured steps and attempts all of them exactly when it succeeds. -/
theorem runSteps_kinds (env : Env) (steps : List Step) (idx : Nat) :
    (runSteps env idx steps).1.map RunEvent.kind =
      (List.range' idx (runSteps env idx steps).1.length).map PhaseKind.step ∧
    (runSteps env idx steps).1.length ≤ steps.length ∧
    ((runSteps env idx steps).2 = .ok → (runSteps env idx steps).1.length = steps.length) := by
  induction steps generalizing idx with
  | nil => simp [runSteps]
  | cons s rest ih =>
    rcases hes : executeStep env s with ⟨tr, res⟩
    rcases res with _ | e | _
    · rcases hrec : runSteps env (idx + 1) rest with ⟨tr2, r2⟩
      obtain ⟨ih1, ih2, ih3⟩ := ih (idx + 1)
      rw [hrec] at ih1 ih2 ih3
      simp only at ih1 ih2 ih3
      have hunf : runSteps env idx (s :: rest) =
          (.runStep idx s.TableName tr .ok :: tr2, r2) := by
        simp [runSteps, hes, hrec]
      rw [hunf]
      simp only [List.map_cons, List.length_cons, List.range'_succ, RunEvent.kind]
      exact ⟨by rw [ih1], by omega, fun h => by rw [ih3 h]⟩
    · have hunf : runSteps env idx (s :: rest) =
          ([.runStep idx s.TableName tr (.err e)], .err (.wrap (.step idx s.TableName) e)) := by
        simp [runSteps, hes]
      rw [hunf]
      simp [List.range', RunEvent.kind]
    · have hunf : runSteps env idx (s :: rest) =
          ([.runStep idx s.TableName tr .hang], .hang) := by
        simp [runSteps, hes]
      rw [hunf]
      simp [List.range', RunEvent.kind]

/-- The phases recorded by a step trace are strictly increasing:
pre-copy SQL, then the stream, then post-copy SQL, each at most once
and never overlapping. -/
theorem executeStep_phases_sorted (env : Env) (step : Step) :
    ((executeStep env step).1.map StepEvent.phase).Pairwise (· < ·) := by
  by_cases hb : step.BeforeCopySQL = "" <;>
  rcases hpre : env.destExec step.BeforeCopySQL with _ | e0 <;>
  rcases hso : stepStreamOutcome env step with c | ⟨e1, c⟩ | _ <;>
  by_cases ha : step.AfterCopySQL = "" <;>
  rcases hpost : env.destExec step.AfterCopySQL with _ | e2 <;>
  simp [executeStep, executeStepFromStream, stepAfterPart, StepEvent.phase, hb, hpre, hso, ha,
    hpost]

/-- An empty `before_copy_sql` is skipped: no pre-copy exec event. -/
theorem executeStep_no_pre_when_empty (env : Env) (step : Step) (hb : step.BeforeCopySQL = "") :
    ∀ sql o, StepEvent.execSQL .beforeCopy sql o ∉ (executeStep env step).1 := by
  intro sql o
  rcases hso : stepStreamOutcome env step with c | ⟨e1, c⟩ | _ <;>
  by_cases ha : step.AfterCopySQL = "" <;>
  rcases hpost : env.destExec step.AfterCopySQL with _ | e2 <;>
  simp [executeStep, executeStepFromStream, stepAfterPart, hb, hso, ha, hpost]

/-- An empty `after_copy_sql` is skipped: no post-copy exec event. -/
theorem executeStep_no_post_when_empty (env : Env) (step : Step) (ha : step.AfterCopySQL = "") :
    ∀ sql o, StepEvent.execSQL .afterCopy sql o ∉ (executeStep env step).1 := by
  intro sql o
  by_cases hb : step.BeforeCopySQL = "" <;>
  rcases hpre : env.destExec step.BeforeCopySQL with _ | e0 <;>
  rcases hso : stepStreamOutcome env step with c | ⟨e1, c⟩ | _ <;>
  simp [executeStep, executeStepFromStream, stepAfterPart, hb, hpre, hso, ha]

/-- When streaming happened and a pre-copy statement is configured, the
trace starts with the successful pre-copy execution: the pre-copy SQL
ran fully, and successfully, before any row streaming. -/
theorem executeStep_pre_first (env : Env) (step : Step) (toSQL fromSQL : String)
    (out : StreamOutcome)
    (hmem : StepEvent.streamCopy toSQL fromSQL out ∈ (executeStep env step).1)
    (hb : step.BeforeCopySQL ≠ "") :
    (executeStep env step).1.head? =
      some (.execSQL .beforeCopy step.BeforeCopySQL none) := by
  rcases hpre : env.destExec step.BeforeCopySQL with _ | e0
  · rcases hso : stepStreamOutcome env step with c | ⟨e1, c⟩ | _ <;>
    by_cases ha : step.AfterCopySQL = "" <;>
    rcases hpost : env.destExec step.AfterCopySQL with _ | e2 <;>
    simp [executeStep, executeStepFromStream, stepAfterPart, hb, hpre, hso, ha, hpost]
  · exfalso
    simp [executeStep, hb, hpre] at hmem


/-- A post-copy exec event occurs only after the row import completed
successfully: the trace then also holds the stream event with a
successful outcome. -/
theorem executeStep_post_after_stream (env : Env) (step : Step) (sql : String)
    (o : Option GoErr)
    (hmem : StepEvent.execSQL .afterCopy sql o ∈ (executeStep env step).1) :
    ∃ c, StepEvent.streamCopy (stepCopyToSQL step) (stepCopyFromSQL step) (.ok c) ∈
      (executeStep env step).1 := by
  by_cases hb : step.BeforeCopySQL = "" <;>
  rcases hpre : env.destExec step.BeforeCopySQL with _ | e0 <;>
  rcases hso : stepStreamOutcome env step with c | ⟨e1, c⟩ | _ <;>
  by_cases ha : step.AfterCopySQL = "" <;>
  rcases hpost : env.destExec step.AfterCopySQL with _ | e2 <;>
  simp_all [executeStep, executeStepFromStream, stepAfterPart]

/-- A pre-copy SQL failure aborts the step: the wrapped error is
returned and no streaming happens at all. -/
theorem executeStep_pre_fail (env : Env) (step : Step) (e : GoErr)
    (hb : step.BeforeCopySQL ≠ "") (hpre : env.destExec step.BeforeCopySQL = some e) :
    (executeStep env step).2 = .err (.wrap .beforeCopySQL e) ∧
    ∀ toSQL fromSQL out, StepEvent.streamCopy toSQL fromSQL out ∉ (executeStep env step).1 := by
  simp [executeStep, hb, hpre]

/-- A streaming failure aborts the step: `g.Wait()`'s error is returned
unwrapped and the post-copy SQL never executes. -/
theorem executeStep_stream_fail (env : Env) (step : Step) (e : GoErr) (c : List String)
    (hso : stepStreamOutcome env step = .err e c)
    (hpre : step.BeforeCopySQL = "" ∨ env.destExec step.BeforeCopySQL = none) :
    (executeStep env step).2 = .err e ∧
    ∀ sql o, StepEvent.execSQL .afterCopy sql o ∉ (executeStep env step).1 := by
  rcases hpre with hb | hpreok
  · simp [executeStep, executeStepFromStream, hb, hso]
  · by_cases hb : step.BeforeCopySQL = "" <;>
    simp [executeStep, executeStepFromStream, hb, hpreok, hso]

/-- On failure the step loop's error is a step-context wrap, its trace
ends with the failing step event, and every earlier step succeeded. -/
theorem runSteps_err_events (env : Env) (steps : List Step) (idx : Nat) (e : GoErr)
    (h : (runSteps env idx steps).2 = .err e) :
    (∃ i t c, e = .wrap (.step i t) c) ∧
    ∃ tr ev, (runSteps env idx steps).1 = tr ++ [ev] ∧ ev.failed = true ∧
      ∀ x ∈ tr, x.failed = false := by
  induction steps generalizing idx with
  | nil => simp [runSteps] at h
  | cons s rest ih =>
    rcases hes : executeStep env s with ⟨tr, res⟩
    rcases res with _ | e0 | _
    · rcases hrec : runSteps env (idx + 1) rest with ⟨tr2, r2⟩
      have hunf : runSteps env idx (s :: rest) =
          (.runStep idx s.TableName tr .ok :: tr2, r2) := by
        simp [runSteps, hes, hrec]
      rw [hunf] at h ⊢
      simp only at h ⊢
      have hih := ih (idx + 1)
      rw [hrec] at hih
      obtain ⟨hctx, tr', ev', htr2, hfl, hprev⟩ := hih h
      simp only at htr2
      refine ⟨hctx, .runStep idx s.TableName tr .ok :: tr', ev', by simp [htr2], hfl, ?_⟩
      intro x hx
      rcases List.mem_cons.mp hx with rfl | hx
      · simp [RunEvent.failed]
      · exact hprev x hx
    · have hunf : runSteps env idx (s :: rest) =
          ([.runStep idx s.TableName tr (.err e0)],
           .err (.wrap (.step idx s.TableName) e0)) := by
        simp [runSteps, hes]
      rw [hunf] at h ⊢
      simp only [RunResult.err.injEq] at h
      refine ⟨⟨idx, s.TableName, e0, h.symm⟩,
        [], .runStep idx s.TableName tr (.err e0), by simp, rfl, by simp⟩
    · have hunf : runSteps env idx (s :: rest) =
          ([.runStep idx s.TableName tr .hang], .hang) := by
        simp [runSteps, hes]
      rw [hunf] at h
      simp at h

/-- A post-copy SQL failure aborts the step: when the stream completed
and the pre-copy part succeeded, a failing `after_copy_sql` makes
`executeStep` return the wrapped post-copy error. -/
theorem executeStep_post_fail (env : Env) (step : Step) (e : GoErr) (c : List String)
    (hso : stepStreamOutcome env step = .ok c)
    (hpre : step.BeforeCopySQL = "" ∨ env.destExec step.BeforeCopySQL = none)
    (ha : step.AfterCopySQL ≠ "") (hpost : env.destExec step.AfterCopySQL = some e) :
    (executeStep env step).2 = .err (.wrap .afterCopySQL e) := by
  rcases hpre with hb | hpreok
  · simp [executeStep, executeStepFromStream, stepAfterPart, hb, hso, ha, hpost]
  · by_cases hb : step.BeforeCopySQL = "" <;>
    simp [executeStep, executeStepFromStream, stepAfterPart, hb, hpreok, hso, ha, hpost]

/-- C7: within a step the phases run strictly in order with no overlap
(pre-copy SQL fully before streaming, post-copy SQL only after a
completed import, each phase at most once), an absent pre- or
post-copy statement is skipped, any error in the pre-copy SQL, the
streaming, or the post-copy SQL aborts the step with that error, a
step error aborts the run (the step loop stops at the failing step and
returns its wrapped error), and across steps the step loop records the
configured steps in configured order with consecutive indices, running
them all exactly when every step succeeds. -/
theorem c7_step_sequencing (env : Env) (step : Step) (steps : List Step) (idx : Nat) :
    (((executeStep env step).1.map StepEvent.phase).Pairwise (· < ·)) ∧
    (step.BeforeCopySQL = "" →
      ∀ sql o, StepEvent.execSQL .beforeCopy sql o ∉ (executeStep env step).1) ∧
    (step.AfterCopySQL = "" →
      ∀ sql o, StepEvent.execSQL .afterCopy sql o ∉ (executeStep env step).1) ∧
    (∀ toSQL fromSQL out, StepEvent.streamCopy toSQL fromSQL out ∈ (executeStep env step).1 →
      step.BeforeCopySQL ≠ "" →
      (executeStep env step).1.head? =
        some (.execSQL .beforeCopy step.BeforeCopySQL none)) ∧
    (∀ sql o, StepEvent.execSQL .afterCopy sql o ∈ (executeStep env step).1 →
      ∃ c, StepEvent.streamCopy (stepCopyToSQL step) (stepCopyFromSQL step) (.ok c) ∈
        (executeStep env step).1) ∧
    (∀ e, step.BeforeCopySQL ≠ "" → env.destExec step.BeforeCopySQL = some e →
      (executeStep env step).2 = .err (.wrap .beforeCopySQL e) ∧
      ∀ toSQL fromSQL out, StepEvent.streamCopy toSQL fromSQL out ∉ (executeStep env step).1) ∧
    (∀ e c, stepStreamOutcome env step = .err e c →
      (step.BeforeCopySQL = "" ∨ env.destExec step.BeforeCopySQL = none) →
      (executeStep env step).2 = .err e ∧
      ∀ sql o, StepEvent.execSQL .afterCopy sql o ∉ (executeStep env step).1) ∧
    (∀ e c, stepStreamOutcome env step = .ok c →
      (step.BeforeCopySQL = "" ∨ env.destExec step.BeforeCopySQL = none) →
      step.AfterCopySQL ≠ "" → env.destExec step.AfterCopySQL = some e →
      (executeStep env step).2 = .err (.wrap .afterCopySQL e)) ∧
    (∀ e, (runSteps env idx steps).2 = .err e →
      (∃ i t c, e = .wrap (.step i t) c) ∧
      ∃ tr ev, (runSteps env idx steps).1 = tr ++ [ev] ∧ ev.failed = true ∧
        ∀ x ∈ tr, x.failed = false) ∧
    ((runSteps env idx steps).1.map RunEvent.kind =
      (List.range' idx (runSteps env idx steps).1.length).map PhaseKind.step) ∧
    ((runSteps env idx steps).1.length ≤ steps.length) ∧
    ((runSteps env idx steps).2 = .ok → (runSteps env idx steps).1.length = steps.length) := by
  obtain ⟨hk1, hk2, hk3⟩ := runSteps_kinds env steps idx
  exact ⟨executeStep_phases_sorted env step,
    fun hb => executeStep_no_pre_when_empty env step hb,
    fun ha => executeStep_no_post_when_empty env step ha,
    fun toSQL fromSQL out hmem hb => executeStep_pre_first env step toSQL fromSQL out hmem hb,
    fun sql o hmem => executeStep_post_after_stream env step sql o hmem,
    fun e hb hpre => executeStep_pre_fail env step e hb hpre,
    fun e c hso hpre => executeStep_stream_fail env step e c hso hpre,
    fun e c hso hpre ha hpost => executeStep_post_fail env step e c hso hpre ha hpost,
    fun e herr => runSteps_err_events env steps idx e herr,
    hk1, hk2, hk3⟩

/-- Witness for C7 on a step with pre- and post-copy SQL: phases are
strictly ordered and the pre-copy execution is the first event. -/
theorem c7_step_sequencing_witness :
    (((executeStep envBase stepPrePost).1.map StepEvent.phase).Pairwise (· < ·)) ∧
    (executeStep envBase stepPrePost).1.head? =
      some (.execSQL .beforeCopy "create temporary table temp_people (like people)" none) := by
  refine ⟨(c7_step_sequencing envBase stepPrePost [] 0).1, ?_⟩
  exact (c7_step_sequencing envBase stepPrePost [] 0).2.2.2.1
    (stepCopyToSQL stepPrePost) (stepCopyFromSQL stepPrePost)
    (stepStreamOutcome envBase stepPrePost) (by decide) (by decide)

/-- C8: every stream event of a step uses, as its source read command,
the parenthesized sub-query COPY TO when `select_sql` is set and the
direct full-table COPY TO on the destination table name otherwise, and
always the appending COPY FROM stdin on the destination table name as
its write command; and the only destination commands a step ever
issues are its configured pre-copy SQL, its configured post-copy SQL
and that COPY pair (no truncate or replace). -/
theorem c8_copy_commands (env : Env) (step : Step) (ev : StepEvent)
    (hmem : ev ∈ (executeStep env step).1) :
    (∀ toSQL fromSQL out, ev = .streamCopy toSQL fromSQL out →
      toSQL = (if step.SelectSQL ≠ "" then "copy (" ++ step.SelectSQL ++ ") to stdout"
               else "copy " ++ step.TableName ++ " to stdout") ∧
      fromSQL = "copy " ++ step.TableName ++ " from stdin") ∧
    ((∃ o, ev = .execSQL .beforeCopy step.BeforeCopySQL o) ∨
     (∃ o, ev = .execSQL .afterCopy step.AfterCopySQL o) ∨
     ev = .streamCopy (stepCopyToSQL step) (stepCopyFromSQL step)
       (stepStreamOutcome env step)) := by
  have hall : ∀ x ∈ (executeStep env step).1,
      (∃ o, x = StepEvent.execSQL .beforeCopy step.BeforeCopySQL o) ∨
      (∃ o, x = StepEvent.execSQL .afterCopy step.AfterCopySQL o) ∨
      x = StepEvent.streamCopy (stepCopyToSQL step) (stepCopyFromSQL step)
        (stepStreamOutcome env step) := by
    by_cases hb : step.BeforeCopySQL = "" <;>
    rcases hpre : env.destExec step.BeforeCopySQL with _ | e0 <;>
    rcases hso : stepStreamOutcome env step with c | ⟨e1, c⟩ | _ <;>
    by_cases ha : step.AfterCopySQL = "" <;>
    rcases hpost : env.destExec step.AfterCopySQL with _ | e2 <;>
    simp [executeStep, executeStepFromStream, stepAfterPart, hb, hpre, hso, ha, hpost]
  have hsplit := hall ev hmem
  refine ⟨?_, hsplit⟩
  intro toSQL fromSQL out hev
  rcases hsplit with ⟨o, h⟩ | ⟨o, h⟩ | h
  · rw [hev] at h
    simp at h
  · rw [hev] at h
    simp at h
  · rw [hev] at h
    injection h with h1 h2 h3
    subst h1
    subst h2
    exact ⟨rfl, rfl⟩

/-- Exhaustive characterization of `pgPartialCopyCore`: one case per
first failure site, in source order, each giving the exact trace and
result. -/
theorem core_cases (env : Env) (config : Config) :
    (∃ e, env.beginTxn = some e ∧
      pgPartialCopyCore env config = ([.beginTxn (some e)], .err (.wrap .startTxn e))) ∨
    (env.beginTxn = none ∧
      ((∃ e, env.exportSnapshot.Err = some e ∧
          pgPartialCopyCore env config = (coreT4 env, .err (.wrap .exportSnapshot e))) ∨
       (env.exportSnapshot.Err = none ∧
        ((env.exportSnapshot.Rows.length ≠ 1 ∧
            pgPartialCopyCore env config =
              (coreT4 env,
               .err (.base ("expected one row from pg_export_snapshot, got " ++
                 toString env.exportSnapshot.Rows.length)))) ∨
         (env.exportSnapshot.Rows.length = 1 ∧
          ((∃ e, env.pgDump config.Source.DatabaseURL (coreSnapID env) = .error e ∧
              pgPartialCopyCore env config =
                (coreT4 env ++
                  [.dumpStructure config.Source.DatabaseURL (coreSnapID env) (.error e)],
                 .err (.wrap .dumpStructure e))) ∨
           (∃ structureSQL,
              env.pgDump config.Source.DatabaseURL (coreSnapID env) = .ok structureSQL ∧
              ((∃ e, prepareDestination env config.Destination = some e ∧
                  pgPartialCopyCore env config =
                    (coreT5 env config structureSQL ++
                      [.prepareDest config.Destination.PrepareCommand (some e)],
                     .err (.wrap .prepareDest e))) ∨
               (prepareDestination env config.Destination = none ∧
                ((∃ e, env.loadStructure config.Destination.DatabaseURL structureSQL =
                      some e ∧
                    pgPartialCopyCore env config =
                      (coreT6 env config structureSQL ++
                        [.loadStructure config.Destination.DatabaseURL structureSQL
                          (some e)],
                       .err (.wrap .loadStructure e))) ∨
                 (env.loadStructure config.Destination.DatabaseURL structureSQL = none ∧
                  ((∃ e, env.connectDestination = some e ∧
                      pgPartialCopyCore env config =
                        (coreT7 env config structureSQL ++ [.connectDest (some e)],
                         .err (.wrap .connectDest e))) ∨
                   (env.connectDestination = none ∧
                    ((∃ fkTr e, dropForeignKeyConstraints env = (fkTr, .error e) ∧
                        pgPartialCopyCore env config =
                          (coreT8 env config structureSQL ++ [.dropFK fkTr (.error e)],
                           .err (.wrap .dropFK e))) ∨
                     (∃ fkTr cmds, dropForeignKeyConstraints env = (fkTr, .ok cmds) ∧
                      ((∃ stepsTr e, runSteps env 0 config.Steps = (stepsTr, .err e) ∧
                          pgPartialCopyCore env config =
                            (coreT9 env config structureSQL fkTr cmds ++ stepsTr,
                             .err e)) ∨
                       (∃ stepsTr, runSteps env 0 config.Steps = (stepsTr, .hang) ∧
                          pgPartialCopyCore env config =
                            (coreT9 env config structureSQL fkTr cmds ++ stepsTr,
                             .hang)) ∨
                       (∃ stepsTr, runSteps env 0 config.Steps = (stepsTr, .ok) ∧
                        ((∃ rcTr e,
                            recreateForeignKeyConstraints env cmds = (rcTr, some e) ∧
                            pgPartialCopyCore env config =
                              (coreT9 env config structureSQL fkTr cmds ++ stepsTr ++
                                [.recreateFK rcTr (some e)],
                               .err (.wrap .recreateFK e))) ∨
                         (∃ rcTr,
                            recreateForeignKeyConstraints env cmds = (rcTr, none) ∧
                            pgPartialCopyCore env config =
                              (coreT9 env config structureSQL fkTr cmds ++ stepsTr ++
                                [.recreateFK rcTr none],
                               .ok)))))))))))))))))))) := by
  rcases hbegin : env.beginTxn with _ | e
  rotate_left
  · exact Or.inl ⟨e, rfl, by simp [pgPartialCopyCore, hbegin]⟩
  refine Or.inr ⟨rfl, ?_⟩
  rcases hsE : env.exportSnapshot.Err with _ | e
  rotate_left
  · exact Or.inl ⟨e, rfl, by simp [pgPartialCopyCore, hbegin, hsE, coreT4]⟩
  refine Or.inr ⟨rfl, ?_⟩
  by_cases hlen : env.exportSnapshot.Rows.length = 1
  rotate_left
  · exact Or.inl ⟨hlen, by simp [pgPartialCopyCore, hbegin, hsE, hlen, coreT4]⟩
  refine Or.inr ⟨hlen, ?_⟩
  rcases hdump : env.pgDump config.Source.DatabaseURL
      (snapshotIDOf env.exportSnapshot.Rows) with e | structureSQL
  · exact Or.inl ⟨e, by simpa [coreSnapID] using hdump,
      by simp [pgPartialCopyCore, hbegin, hsE, hlen, hdump, coreT4, coreSnapID]⟩
  refine Or.inr ⟨structureSQL, by simpa [coreSnapID] using hdump, ?_⟩
  rcases hprep : prepareDestination env config.Destination with _ | e
  rotate_left
  · exact Or.inl ⟨e, rfl,
      by simp [pgPartialCopyCore, hbegin, hsE, hlen, hdump, hprep, coreT4, coreT5,
        coreSnapID]⟩
  refine Or.inr ⟨rfl, ?_⟩
  rcases hload : env.loadStructure config.Destination.DatabaseURL structureSQL with _ | e
  rotate_left
  · exact Or.inl ⟨e, rfl,
      by simp [pgPartialCopyCore, hbegin, hsE, hlen, hdump, hprep, hload, coreT4, coreT5,
        coreT6, coreSnapID]⟩
  refine Or.inr ⟨rfl, ?_⟩
  rcases hconnD : env.connectDestination with _ | e
  rotate_left
  · exact Or.inl ⟨e, rfl,
      by simp [pgPartialCopyCore, hbegin, hsE, hlen, hdump, hprep, hload, hconnD, coreT4,
        coreT5, coreT6, coreT7, coreSnapID]⟩
  refine Or.inr ⟨rfl, ?_⟩
  rcases hdrop : dropForeignKeyConstraints env with ⟨fkTr, fkRes⟩
  rcases fkRes with e | cmds
  · exact Or.inl ⟨fkTr, e, rfl,
      by simp [pgPartialCopyCore, hbegin, hsE, hlen, hdump, hprep, hload, hconnD, hdrop,
        coreT4, coreT5, coreT6, coreT7, coreT8, coreSnapID]⟩
  refine Or.inr ⟨fkTr, cmds, rfl, ?_⟩
  rcases hsteps : runSteps env 0 config.Steps with ⟨stepsTr, sres⟩
  rcases sres with _ | e | _
  rotate_left
  · exact Or.inl ⟨stepsTr, e, rfl,
      by simp [pgPartialCopyCore, hbegin, hsE, hlen, hdump, hprep, hload, hconnD, hdrop,
        hsteps, coreT4, coreT5, coreT6, coreT7, coreT8, coreT9, coreSnapID]⟩
  · exact Or.inr (Or.inl ⟨stepsTr, rfl,
      by simp [pgPartialCopyCore, hbegin, hsE, hlen, hdump, hprep, hload, hconnD, hdrop,
        hsteps, coreT4, coreT5, coreT6, coreT7, coreT8, coreT9, coreSnapID]⟩)
  refine Or.inr (Or.inr ⟨stepsTr, rfl, ?_⟩)
  rcases hrc : recreateForeignKeyConstraints env cmds with ⟨rcTr, rcRes⟩
  rcases rcRes with _ | e
  rotate_left
  · exact Or.inl ⟨rcTr, e, rfl,
      by simp [pgPartialCopyCore, hbegin, hsE, hlen, hdump, hprep, hload, hconnD, hdrop,
        hsteps, hrc, coreT4, coreT5, coreT6, coreT7, coreT8, coreT9, coreSnapID]⟩
  · exact Or.inr ⟨rcTr, rfl,
      by simp [pgPartialCopyCore, hbegin, hsE, hlen, hdump, hprep, hload, hconnD, hdrop,
        hsteps, hrc, coreT4, coreT5, coreT6, coreT7, coreT8, coreT9, coreSnapID]⟩

/-- On success every recorded step event has a successful outcome. -/
theorem runSteps_ok_events (env : Env) (steps : List Step) (idx : Nat)
    (h : (runSteps env idx steps).2 = .ok) :
    ∀ ev ∈ (runSteps env idx steps).1, ev.failed = false := by
  induction steps generalizing idx with
  | nil => simp [runSteps]
  | cons s rest ih =>
    rcases hes : executeStep env s with ⟨tr, res⟩
    rcases res with _ | e0 | _
    · rcases hrec : runSteps env (idx + 1) rest with ⟨tr2, r2⟩
      have hunf : runSteps env idx (s :: rest) =
          (.runStep idx s.TableName tr .ok :: tr2, r2) := by
        simp [runSteps, hes, hrec]
      rw [hunf] at h ⊢
      simp only at h ⊢
      intro ev hev
      rcases List.mem_cons.mp hev with rfl | hev
      · simp [RunEvent.failed]
      · have hih := ih (idx + 1)
        rw [hrec] at hih
        exact hih h ev hev
    · have hunf : runSteps env idx (s :: rest) =
          ([.runStep idx s.TableName tr (.err e0)],
           .err (.wrap (.step idx s.TableName) e0)) := by
        simp [runSteps, hes]
      rw [hunf] at h
      simp at h
    · have hunf : runSteps env idx (s :: rest) =
          ([.runStep idx s.TableName tr .hang], .hang) := by
        simp [runSteps, hes]
      rw [hunf] at h
      simp at h

/-- Every event recorded by the step loop is a step event. -/
theorem runSteps_events_shape (env : Env) (steps : List Step) (idx : Nat) :
    ∀ ev ∈ (runSteps env idx steps).1, ∃ i t str sres, ev = RunEvent.runStep i t str sres := by
  induction steps generalizing idx with
  | nil => simp [runSteps]
  | cons s rest ih =>
    rcases hes : executeStep env s with ⟨tr, res⟩
    rcases res with _ | e0 | _
    · rcases hrec : runSteps env (idx + 1) rest with ⟨tr2, r2⟩
      have hunf : runSteps env idx (s :: rest) =
          (.runStep idx s.TableName tr .ok :: tr2, r2) := by
        simp [runSteps, hes, hrec]
      rw [hunf]
      simp only
      intro ev hev
      rcases List.mem_cons.mp hev with rfl | hev
      · exact ⟨idx, s.TableName, tr, .ok, rfl⟩
      · have hih := ih (idx + 1)
        rw [hrec] at hih
        exact hih ev hev
    · have hunf : runSteps env idx (s :: rest) =
          ([.runStep idx s.TableName tr (.err e0)],
           .err (.wrap (.step idx s.TableName) e0)) := by
        simp [runSteps, hes]
      rw [hunf]
      simp only
      intro ev hev
      rcases List.mem_singleton.mp hev with rfl
      exact ⟨idx, s.TableName, tr, .err e0, rfl⟩
    · have hunf : runSteps env idx (s :: rest) =
          ([.runStep idx s.TableName tr .hang], .hang) := by
        simp [runSteps, hes]
      rw [hunf]
      simp only
      intro ev hev
      rcases List.mem_singleton.mp hev with rfl
      exact ⟨idx, s.TableName, tr, .hang, rfl⟩

/-- Characterization of the `pgPartialCopy` wrapper around the core:
source connection, then optional before-transaction SQL, then the
core phases. -/
theorem pgPartialCopy_cases (env : Env) (config : Config) :
    (∃ e, env.connectSource = some e ∧
      pgPartialCopy env config =
        ([.connectSource (some e)], .err (.wrap .connectSource e))) ∨
    (env.connectSource = none ∧
      ((∃ e, config.Source.BeforeTransactionSQL ≠ "" ∧
          env.execSourceSQL config.Source.BeforeTransactionSQL = some e ∧
          pgPartialCopy env config =
            ([.connectSource none,
              .beforeTxnSQL config.Source.BeforeTransactionSQL (some e)],
             .err (.wrap .beforeTxnSQL e))) ∨
       (config.Source.BeforeTransactionSQL ≠ "" ∧
        env.execSourceSQL config.Source.BeforeTransactionSQL = none ∧
        pgPartialCopy env config =
          (.connectSource none ::
            .beforeTxnSQL config.Source.BeforeTransactionSQL none ::
              (pgPartialCopyCore env config).1,
           (pgPartialCopyCore env config).2)) ∨
       (config.Source.BeforeTransactionSQL = "" ∧
        pgPartialCopy env config =
          (.connectSource none :: (pgPartialCopyCore env config).1,
           (pgPartialCopyCore env config).2)))) := by
  rcases hcs : env.connectSource with _ | e
  rotate_left
  · exact Or.inl ⟨e, rfl, by simp [pgPartialCopy, hcs]⟩
  refine Or.inr ⟨rfl, ?_⟩
  rcases hcore : pgPartialCopyCore env config with ⟨ctr, cres⟩
  by_cases hbt : config.Source.BeforeTransactionSQL = ""
  · exact Or.inr (Or.inr ⟨hbt, by simp [pgPartialCopy, hcs, hbt, hcore]⟩)
  · rcases hex : env.execSourceSQL config.Source.BeforeTransactionSQL with _ | e
    · exact Or.inr (Or.inl ⟨hbt, rfl, by simp [pgPartialCopy, hcs, hbt, hex, hcore]⟩)
    · exact Or.inl ⟨e, hbt, rfl, by simp [pgPartialCopy, hcs, hbt, hex]⟩

/-- Appending a common front preserves the prefix relation. -/
theorem prefixAppendLeft {α : Type} (p : List α) {l m : List α} (h : l <+: m) :
    p ++ l <+: p ++ m := by
  obtain ⟨t, ht⟩ := h
  exact ⟨t, by rw [List.append_assoc, ht]⟩

/-- The first `k` step kinds are a prefix of the full step-kind block
followed by the recreate kind. -/
theorem steps_kinds_le (k n : Nat) (hk : k ≤ n) :
    ((List.range' 0 k).map PhaseKind.step) <+:
      ((List.range n).map PhaseKind.step ++ [PhaseKind.recreateFK]) := by
  refine ⟨(List.range' k (n - k)).map PhaseKind.step ++ [PhaseKind.recreateFK], ?_⟩
  rw [← List.append_assoc, ← List.map_append, List.range_eq_range']
  congr 2
  have h := List.range'_append_1 0 k (n - k)
  rw [Nat.zero_add] at h
  rw [Nat.sub_add_cancel hk] at h
  exact h

/-- The kinds of the trace through the constraint drop. -/
theorem coreT9_kinds (env : Env) (config : Config) (structureSQL : String)
    (fkTr : List FKEvent) (cmds : List String) :
    (coreT9 env config structureSQL fkTr cmds).map RunEvent.kind =
      [.beginTxn, .exportSnapshot, .dumpStructure, .prepareDest, .loadStructure,
       .connectDest, .dropFK] := by
  simp [coreT4, coreT5, coreT6, coreT7, coreT8, coreT9, RunEvent.kind]

/-- All events through the constraint drop succeeded, given a
well-formed snapshot result. -/
theorem coreT9_ok_events (env : Env) (config : Config) (structureSQL : String)
    (fkTr : List FKEvent) (cmds : List String)
    (hsE : env.exportSnapshot.Err = none) (hlen : env.exportSnapshot.Rows.length = 1) :
    ∀ x ∈ coreT9 env config structureSQL fkTr cmds, x.failed = false := by
  simp [coreT4, coreT5, coreT6, coreT7, coreT8, coreT9, RunEvent.failed, hsE, hlen]

/-- C4's phase discipline for `pgPartialCopyCore`: the recorded phase
kinds are a prefix of the canonical order, equal to it on success, and
on failure the trace ends with the failing phase while every earlier
recorded phase succeeded. -/
theorem core_phases (env : Env) (config : Config) :
    ((pgPartialCopyCore env config).1.map RunEvent.kind) <+: canonicalCorePhases config ∧
    ((pgPartialCopyCore env config).2 = .ok →
      (pgPartialCopyCore env config).1.map RunEvent.kind = canonicalCorePhases config) ∧
    (∀ e, (pgPartialCopyCore env config).2 = .err e →
      ∃ tr ev, (pgPartialCopyCore env config).1 = tr ++ [ev] ∧ ev.failed = true ∧
        ∀ x ∈ tr, x.failed = false) := by
  rcases core_cases env config with
    ⟨e, hb, heq⟩ |
    ⟨hb, ⟨e, hsE, heq⟩ |
      ⟨hsE, ⟨hlen, heq⟩ |
        ⟨hlen, ⟨e, hdump, heq⟩ |
          ⟨ssql, hdump, ⟨e, hprep, heq⟩ |
            ⟨hprep, ⟨e, hload, heq⟩ |
              ⟨hload, ⟨e, hconnD, heq⟩ |
                ⟨hconnD, ⟨fkTr, e, hdrop, heq⟩ |
                  ⟨fkTr, cmds, hdrop, ⟨stepsTr, e, hsteps, heq⟩ |
                    ⟨stepsTr, hsteps, heq⟩ |
                    ⟨stepsTr, hsteps, ⟨rcTr, e, hrc, heq⟩ | ⟨rcTr, hrc, heq⟩⟩⟩⟩⟩⟩⟩⟩⟩⟩
  · rw [heq]
    refine ⟨⟨[.exportSnapshot, .dumpStructure, .prepareDest, .loadStructure, .connectDest,
        .dropFK] ++ ((List.range config.Steps.length).map PhaseKind.step ++ [.recreateFK]),
        by simp [canonicalCorePhases, RunEvent.kind]⟩, by simp, ?_⟩
    intro e' he'
    exact ⟨[], .beginTxn (some e), by simp, rfl, by simp⟩
  · rw [heq]
    refine ⟨⟨[.dumpStructure, .prepareDest, .loadStructure, .connectDest, .dropFK] ++
        ((List.range config.Steps.length).map PhaseKind.step ++ [PhaseKind.recreateFK]),
        by simp [canonicalCorePhases, coreT4, RunEvent.kind]⟩, by simp, ?_⟩
    intro e' he'
    exact ⟨[.beginTxn none], .exportSnapshot env.exportSnapshot, by simp [coreT4],
      by simp [RunEvent.failed, hsE], by simp [RunEvent.failed]⟩
  · rw [heq]
    refine ⟨⟨[.dumpStructure, .prepareDest, .loadStructure, .connectDest, .dropFK] ++
        ((List.range config.Steps.length).map PhaseKind.step ++ [PhaseKind.recreateFK]),
        by simp [canonicalCorePhases, coreT4, RunEvent.kind]⟩, by simp, ?_⟩
    intro e' he'
    exact ⟨[.beginTxn none], .exportSnapshot env.exportSnapshot, by simp [coreT4],
      by simp [RunEvent.failed, hsE, hlen], by simp [RunEvent.failed]⟩
  · rw [heq]
    refine ⟨⟨[.prepareDest, .loadStructure, .connectDest, .dropFK] ++
        ((List.range config.Steps.length).map PhaseKind.step ++ [PhaseKind.recreateFK]),
        by simp [canonicalCorePhases, coreT4, RunEvent.kind]⟩, by simp, ?_⟩
    intro e' he'
    exact ⟨coreT4 env, .dumpStructure config.Source.DatabaseURL (coreSnapID env) (.error e),
      by simp [coreT4], rfl, by simp [coreT4, RunEvent.failed, hsE, hlen]⟩
  · rw [heq]
    refine ⟨⟨[.loadStructure, .connectDest, .dropFK] ++
        ((List.range config.Steps.length).map PhaseKind.step ++ [PhaseKind.recreateFK]),
        by simp [canonicalCorePhases, coreT4, coreT5, RunEvent.kind]⟩, by simp, ?_⟩
    intro e' he'
    exact ⟨coreT5 env config ssql,
      .prepareDest config.Destination.PrepareCommand (some e),
      by simp [coreT5], rfl, by simp [coreT4, coreT5, RunEvent.failed, hsE, hlen]⟩
  · rw [heq]
    refine ⟨⟨[.connectDest, .dropFK] ++
        ((List.range config.Steps.length).map PhaseKind.step ++ [PhaseKind.recreateFK]),
        by simp [canonicalCorePhases, coreT4, coreT5, coreT6, RunEvent.kind]⟩, by simp, ?_⟩
    intro e' he'
    exact ⟨coreT6 env config ssql,
      .loadStructure config.Destination.DatabaseURL ssql (some e),
      by simp [coreT6], rfl,
      by simp [coreT4, coreT5, coreT6, RunEvent.failed, hsE, hlen]⟩
  · rw [heq]
    refine ⟨⟨[.dropFK] ++
        ((List.range config.Steps.length).map PhaseKind.step ++ [PhaseKind.recreateFK]),
        by simp [canonicalCorePhases, coreT4, coreT5, coreT6, coreT7, RunEvent.kind]⟩,
      by simp, ?_⟩
    intro e' he'
    exact ⟨coreT7 env config ssql, .connectDest (some e),
      by simp [coreT7], rfl,
      by simp [coreT4, coreT5, coreT6, coreT7, RunEvent.failed, hsE, hlen]⟩
  · rw [heq]
    refine ⟨⟨(List.range config.Steps.length).map PhaseKind.step ++ [PhaseKind.recreateFK],
        by simp [canonicalCorePhases, coreT4, coreT5, coreT6, coreT7, coreT8,
          RunEvent.kind]⟩, by simp, ?_⟩
    intro e' he'
    exact ⟨coreT8 env config ssql, .dropFK fkTr (.error e),
      by simp [coreT8], rfl,
      by simp [coreT4, coreT5, coreT6, coreT7, coreT8, RunEvent.failed, hsE, hlen]⟩
  · rw [heq]
    obtain ⟨hkinds, hle, _⟩ := runSteps_kinds env config.Steps 0
    rw [hsteps] at hkinds hle
    simp only at hkinds hle
    obtain ⟨_, tr', ev', hsplit, hfl, hprev⟩ :=
      runSteps_err_events env config.Steps 0 e (by rw [hsteps])
    rw [hsteps] at hsplit
    simp only at hsplit
    refine ⟨?_, by simp, ?_⟩
    · rw [List.map_append, coreT9_kinds, hkinds]
      unfold canonicalCorePhases
      exact prefixAppendLeft _ (steps_kinds_le stepsTr.length config.Steps.length hle)
    · intro e' he'
      refine ⟨coreT9 env config ssql fkTr cmds ++ tr', ev', by simp [hsplit], hfl, ?_⟩
      intro x hx
      rcases List.mem_append.mp hx with hx | hx
      · exact coreT9_ok_events env config ssql fkTr cmds hsE hlen x hx
      · exact hprev x hx
  · rw [heq]
    obtain ⟨hkinds, hle, _⟩ := runSteps_kinds env config.Steps 0
    rw [hsteps] at hkinds hle
    simp only at hkinds hle
    refine ⟨?_, by simp, by intro e' he'; simp at he'⟩
    rw [List.map_append, coreT9_kinds, hkinds]
    unfold canonicalCorePhases
    exact prefixAppendLeft _ (steps_kinds_le stepsTr.length config.Steps.length hle)
  · rw [heq]
    obtain ⟨hkinds, hle, hfull⟩ := runSteps_kinds env config.Steps 0
    rw [hsteps] at hkinds hle hfull
    simp only at hkinds hle hfull
    have hlenfull : stepsTr.length = config.Steps.length := hfull trivial
    have hkfull : stepsTr.map RunEvent.kind =
        (List.range config.Steps.length).map PhaseKind.step := by
      rw [hkinds, hlenfull, List.range_eq_range']
    refine ⟨?_, by simp, ?_⟩
    · rw [List.map_append, List.map_append, coreT9_kinds, hkfull]
      unfold canonicalCorePhases
      simp [RunEvent.kind, List.append_assoc]
    · intro e' he'
      refine ⟨coreT9 env config ssql fkTr cmds ++ stepsTr, .recreateFK rcTr (some e),
        by simp, rfl, ?_⟩
      intro x hx
      rcases List.mem_append.mp hx with hx | hx
      · exact coreT9_ok_events env config ssql fkTr cmds hsE hlen x hx
      · exact runSteps_ok_events env config.Steps 0 (by rw [hsteps]) x (by rw [hsteps]; exact hx)
  · rw [heq]
    obtain ⟨hkinds, hle, hfull⟩ := runSteps_kinds env config.Steps 0
    rw [hsteps] at hkinds hle hfull
    simp only at hkinds hle hfull
    have hlenfull : stepsTr.length = config.Steps.length := hfull trivial
    have hkfull : stepsTr.map RunEvent.kind =
        (List.range config.Steps.length).map PhaseKind.step := by
      rw [hkinds, hlenfull, List.range_eq_range']
    have hkeq : ((coreT9 env config ssql fkTr cmds ++ stepsTr ++
        [RunEvent.recreateFK rcTr none]).map RunEvent.kind) = canonicalCorePhases config := by
      rw [List.map_append, List.map_append, coreT9_kinds, hkfull]
      unfold canonicalCorePhases
      simp [RunEvent.kind, List.append_assoc]
    exact ⟨hkeq ▸ List.prefix_refl _, fun _ => hkeq, by intro e' he'; simp at he'⟩

/-- Extending both lists with the same head preserves the prefix
relation. -/
theorem prefix_cons {α : Type} (a : α) {l m : List α} (h : l <+: m) :
    a :: l <+: a :: m := by
  obtain ⟨t, ht⟩ := h
  exact ⟨t, by simp [ht]⟩

/-- The source-connection phase never appears among the core phases. -/
theorem connectSource_not_mem_core (config : Config) :
    PhaseKind.connectSource ∉ canonicalCorePhases config := by
  simp [canonicalCorePhases]

/-- The before-transaction phase never appears among the core phases. -/
theorem beforeTxnSQL_not_mem_core (config : Config) :
    PhaseKind.beforeTxnSQL ∉ canonicalCorePhases config := by
  simp [canonicalCorePhases]

/-- The canonical core phase list has no duplicates. -/
theorem canonicalCorePhases_nodup (config : Config) : (canonicalCorePhases config).Nodup := by
  have hsteps : ((List.range config.Steps.length).map PhaseKind.step).Nodup :=
    List.Nodup.map (fun a b h => by injection h) (List.nodup_range _)
  simp [canonicalCorePhases, List.nodup_append, List.disjoint_left, hsteps]

/-- The canonical phase list has no duplicates: no phase is ever
re-attempted. -/
theorem canonicalPhases_nodup (config : Config) : (canonicalPhases config).Nodup := by
  have hcore := canonicalCorePhases_nodup config
  have hcs := connectSource_not_mem_core config
  have hbtm := beforeTxnSQL_not_mem_core config
  by_cases hbt : config.Source.BeforeTransactionSQL = "" <;>
  simp [canonicalPhases, hbt, List.nodup_cons, hcore, hcs, hbtm]

/-- C4: the orchestrator records its phases in exactly the canonical
source order (connect source, optional pre-transaction SQL, begin
transaction, export snapshot, dump structure, prepare destination,
load structure, connect destination, drop constraints, the steps in
configured order, recreate constraints): the recorded kinds are always
a duplicate-free prefix of that order, equal to it on success, and on
failure the trace ends with the first failing phase - no later phase
is attempted, no phase is re-attempted, and no destination-side work
is rolled back (the trace holds nothing but the forward phases). -/
theorem c4_orchestrator_phases (env : Env) (config : Config) :
    ((pgPartialCopy env config).1.map RunEvent.kind) <+: canonicalPhases config ∧
    ((pgPartialCopy env config).1.map RunEvent.kind).Nodup ∧
    ((pgPartialCopy env config).2 = .ok →
      (pgPartialCopy env config).1.map RunEvent.kind = canonicalPhases config) ∧
    (∀ e, (pgPartialCopy env config).2 = .err e →
      ∃ tr ev, (pgPartialCopy env config).1 = tr ++ [ev] ∧ ev.failed = true ∧
        ∀ x ∈ tr, x.failed = false) := by
  obtain ⟨hpre, hok, herr⟩ := core_phases env config
  have hcorend : ((pgPartialCopyCore env config).1.map RunEvent.kind).Nodup :=
    (canonicalCorePhases_nodup config).sublist hpre.sublist
  rcases pgPartialCopy_cases env config with
    ⟨e, hcs, heq⟩ | ⟨hcs, ⟨e, hbt, hex, heq⟩ | ⟨hbt, hex, heq⟩ | ⟨hbt, heq⟩⟩
  · rw [heq]
    refine ⟨⟨(if config.Source.BeforeTransactionSQL ≠ "" then [PhaseKind.beforeTxnSQL]
        else []) ++ canonicalCorePhases config, by simp [canonicalPhases, RunEvent.kind]⟩,
      by simp, by simp, ?_⟩
    intro e' he'
    exact ⟨[], .connectSource (some e), by simp, rfl, by simp⟩
  · rw [heq]
    refine ⟨⟨canonicalCorePhases config, by simp [canonicalPhases, hbt, RunEvent.kind]⟩,
      by simp [RunEvent.kind], by simp, ?_⟩
    intro e' he'
    exact ⟨[.connectSource none],
      .beforeTxnSQL config.Source.BeforeTransactionSQL (some e),
      by simp, rfl, by simp [RunEvent.failed]⟩
  · rw [heq]
    simp only [List.map_cons, RunEvent.kind]
    refine ⟨?_, ?_, ?_, ?_⟩
    · have : canonicalPhases config =
          PhaseKind.connectSource :: PhaseKind.beforeTxnSQL :: canonicalCorePhases config := by
        simp [canonicalPhases, hbt]
      rw [this]
      exact prefix_cons _ (prefix_cons _ hpre)
    · refine List.nodup_cons.mpr ⟨?_, List.nodup_cons.mpr ⟨?_, hcorend⟩⟩
      · intro hmem
        rcases List.mem_cons.mp hmem with h | h
        · exact PhaseKind.noConfusion h
        · exact connectSource_not_mem_core config (hpre.subset h)
      · intro hmem
        exact beforeTxnSQL_not_mem_core config (hpre.subset hmem)
    · intro hres
      rw [hok hres]
      simp [canonicalPhases, hbt]
    · intro e' he'
      obtain ⟨tr, ev, hsplit, hfl, hprev⟩ := herr e' he'
      refine ⟨.connectSource none ::
        .beforeTxnSQL config.Source.BeforeTransactionSQL none :: tr, ev,
        by simp [hsplit], hfl, ?_⟩
      intro x hx
      rcases List.mem_cons.mp hx with rfl | hx
      · rfl
      rcases List.mem_cons.mp hx with rfl | hx
      · rfl
      · exact hprev x hx
  · rw [heq]
    simp only [List.map_cons, RunEvent.kind]
    refine ⟨?_, ?_, ?_, ?_⟩
    · have : canonicalPhases config =
          PhaseKind.connectSource :: canonicalCorePhases config := by
        simp [canonicalPhases, hbt]
      rw [this]
      exact prefix_cons _ hpre
    · refine List.nodup_cons.mpr ⟨?_, hcorend⟩
      intro hmem
      exact connectSource_not_mem_core config (hpre.subset hmem)
    · intro hres
      rw [hok hres]
      simp [canonicalPhases, hbt]
    · intro e' he'
      obtain ⟨tr, ev, hsplit, hfl, hprev⟩ := herr e' he'
      refine ⟨.connectSource none :: tr, ev, by simp [hsplit], hfl, ?_⟩
      intro x hx
      rcases List.mem_cons.mp hx with rfl | hx
      · rfl
      · exact hprev x hx

/-- Witness for C4 on a fully successful concrete run. -/
theorem c4_orchestrator_phases_witness :
    (pgPartialCopy envBase configA).1.map RunEvent.kind = canonicalPhases configA :=
  (c4_orchestrator_phases envBase configA).2.2.1 (by decide)

/-- A source-connection event neither drops nor recreates
constraints. -/
theorem dropSucceeded_cons_connectSource (o : Option GoErr) (tr : List RunEvent) :
    dropSucceeded (RunEvent.connectSource o :: tr) ↔ dropSucceeded tr := by
  simp [dropSucceeded]

/-- A before-transaction event neither drops nor recreates
constraints. -/
theorem dropSucceeded_cons_beforeTxn (sql : String) (o : Option GoErr) (tr : List RunEvent) :
    dropSucceeded (RunEvent.beforeTxnSQL sql o :: tr) ↔ dropSucceeded tr := by
  simp [dropSucceeded]

/-- A source-connection event is not a recreate completion. -/
theorem recreateCompleted_cons_connectSource (o : Option GoErr) (tr : List RunEvent) :
    recreateCompleted (RunEvent.connectSource o :: tr) ↔ recreateCompleted tr := by
  simp [recreateCompleted]

/-- A before-transaction event is not a recreate completion. -/
theorem recreateCompleted_cons_beforeTxn (sql : String) (o : Option GoErr)
    (tr : List RunEvent) :
    recreateCompleted (RunEvent.beforeTxnSQL sql o :: tr) ↔ recreateCompleted tr := by
  simp [recreateCompleted]

/-- C9 for the core: the outermost wrap of a failing core run is a
step or recreate context exactly when the run failed after the
foreign-key drop succeeded and before the recreate completed. -/
theorem core_constraints_missing (env : Env) (config : Config) (e : GoErr)
    (hres : (pgPartialCopyCore env config).2 = .err e) :
    (constraintsMissingKind e.outerCtx = true ↔
      (dropSucceeded (pgPartialCopyCore env config).1 ∧
       ¬ recreateCompleted (pgPartialCopyCore env config).1)) := by
  rcases core_cases env config with
    ⟨e0, hb, heq⟩ |
    ⟨hb, ⟨e0, hsE, heq⟩ |
      ⟨hsE, ⟨hlen, heq⟩ |
        ⟨hlen, ⟨e0, hdump, heq⟩ |
          ⟨ssql, hdump, ⟨e0, hprep, heq⟩ |
            ⟨hprep, ⟨e0, hload, heq⟩ |
              ⟨hload, ⟨e0, hconnD, heq⟩ |
                ⟨hconnD, ⟨fkTr, e0, hdrop, heq⟩ |
                  ⟨fkTr, cmds, hdrop, ⟨stepsTr, e0, hsteps, heq⟩ |
                    ⟨stepsTr, hsteps, heq⟩ |
                    ⟨stepsTr, hsteps, ⟨rcTr, e0, hrc, heq⟩ | ⟨rcTr, hrc, heq⟩⟩⟩⟩⟩⟩⟩⟩⟩⟩
  · rw [heq] at hres ⊢
    simp only at hres
    injection hres with h
    subst h
    simp [constraintsMissingKind, GoErr.outerCtx, dropSucceeded, recreateCompleted]
  · rw [heq] at hres ⊢
    simp only at hres
    injection hres with h
    subst h
    simp [constraintsMissingKind, GoErr.outerCtx, dropSucceeded, recreateCompleted, coreT4]
  · rw [heq] at hres ⊢
    simp only at hres
    injection hres with h
    subst h
    simp [constraintsMissingKind, GoErr.outerCtx, dropSucceeded, recreateCompleted, coreT4]
  · rw [heq] at hres ⊢
    simp only at hres
    injection hres with h
    subst h
    simp [constraintsMissingKind, GoErr.outerCtx, dropSucceeded, recreateCompleted, coreT4]
  · rw [heq] at hres ⊢
    simp only at hres
    injection hres with h
    subst h
    simp [constraintsMissingKind, GoErr.outerCtx, dropSucceeded, recreateCompleted, coreT4,
      coreT5]
  · rw [heq] at hres ⊢
    simp only at hres
    injection hres with h
    subst h
    simp [constraintsMissingKind, GoErr.outerCtx, dropSucceeded, recreateCompleted, coreT4,
      coreT5, coreT6]
  · rw [heq] at hres ⊢
    simp only at hres
    injection hres with h
    subst h
    simp [constraintsMissingKind, GoErr.outerCtx, dropSucceeded, recreateCompleted, coreT4,
      coreT5, coreT6, coreT7]
  · rw [heq] at hres ⊢
    simp only at hres
    injection hres with h
    subst h
    simp [constraintsMissingKind, GoErr.outerCtx, dropSucceeded, recreateCompleted, coreT4,
      coreT5, coreT6, coreT7, coreT8]
  · rw [heq] at hres ⊢
    simp only at hres
    injection hres with h
    subst h
    obtain ⟨⟨i, t, c, hctx⟩, _⟩ := runSteps_err_events env config.Steps 0 e0 (by rw [hsteps])
    subst hctx
    have hshape := runSteps_events_shape env config.Steps 0
    rw [hsteps] at hshape
    simp only at hshape
    constructor
    · intro _
      constructor
      · exact ⟨fkTr, cmds, by simp [coreT4, coreT5, coreT6, coreT7, coreT8, coreT9]⟩
      · rintro ⟨rcTr, hmem⟩
        rcases List.mem_append.mp hmem with hmem | hmem
        · simp [coreT4, coreT5, coreT6, coreT7, coreT8, coreT9] at hmem
        · obtain ⟨i', t', str', sres', hev⟩ := hshape _ hmem
          simp at hev
    · intro _
      simp [constraintsMissingKind, GoErr.outerCtx]
  · rw [heq] at hres
    simp at hres
  · rw [heq] at hres ⊢
    simp only at hres
    injection hres with h
    subst h
    have hshape := runSteps_events_shape env config.Steps 0
    rw [hsteps] at hshape
    simp only at hshape
    constructor
    · intro _
      constructor
      · exact ⟨fkTr, cmds, by simp [coreT4, coreT5, coreT6, coreT7, coreT8, coreT9]⟩
      · rintro ⟨rcTr', hmem⟩
        rcases List.mem_append.mp hmem with hmem | hmem
        · rcases List.mem_append.mp hmem with hmem | hmem
          · simp [coreT4, coreT5, coreT6, coreT7, coreT8, coreT9] at hmem
          · obtain ⟨i', t', str', sres', hev⟩ := hshape _ hmem
            simp at hev
        · simp at hmem
    · intro _
      simp [constraintsMissingKind, GoErr.outerCtx]
  · rw [heq] at hres
    simp at hres

/-- C9: a run failure is of a constraints-missing kind (a step wrap or
the recreate wrap) exactly when the run failed after the foreign-key
drop succeeded and before the recreate completed - so the caller can
tell from the reported error that the destination is left with
constraints missing. -/
theorem c9_constraints_missing_discriminator (env : Env) (config : Config) (e : GoErr)
    (hres : (pgPartialCopy env config).2 = .err e) :
    (constraintsMissingKind e.outerCtx = true ↔
      (dropSucceeded (pgPartialCopy env config).1 ∧
       ¬ recreateCompleted (pgPartialCopy env config).1)) := by
  rcases pgPartialCopy_cases env config with
    ⟨e0, hcs, heq⟩ | ⟨hcs, ⟨e0, hbt, hex, heq⟩ | ⟨hbt, hex, heq⟩ | ⟨hbt, heq⟩⟩
  · rw [heq] at hres ⊢
    simp only at hres
    injection hres with h
    subst h
    simp [constraintsMissingKind, GoErr.outerCtx, dropSucceeded, recreateCompleted]
  · rw [heq] at hres ⊢
    simp only at hres
    injection hres with h
    subst h
    simp [constraintsMissingKind, GoErr.outerCtx, dropSucceeded, recreateCompleted]
  · rw [heq] at hres ⊢
    simp only at hres
    rw [dropSucceeded_cons_connectSource, dropSucceeded_cons_beforeTxn,
      recreateCompleted_cons_connectSource, recreateCompleted_cons_beforeTxn]
    exact core_constraints_missing env config e hres
  · rw [heq] at hres ⊢
    simp only at hres
    rw [dropSucceeded_cons_connectSource, recreateCompleted_cons_connectSource]
    exact core_constraints_missing env config e hres

/-- Witness for C9: a run whose first step fails mid-stream is left
with the constraints dropped and not recreated. -/
theorem c9_constraints_missing_witness :
    dropSucceeded (pgPartialCopy envStepFails configA).1 ∧
    ¬ recreateCompleted (pgPartialCopy envStepFails configA).1 :=
  (c9_constraints_missing_discriminator envStepFails configA
    (.wrap (.step 0 "a") (.base "ERROR: value too long")) (by decide)).mp (by decide)

/-- When the snapshot query returns a row count other than one, the
core aborts right there with the row-count error. -/
theorem core_snapshot_guard (env : Env) (config : Config)
    (hbegin : env.beginTxn = none) (hsE : env.exportSnapshot.Err = none)
    (hlen : env.exportSnapshot.Rows.length ≠ 1) :
    pgPartialCopyCore env config =
      (coreT4 env,
       .err (.base ("expected one row from pg_export_snapshot, got " ++
         toString env.exportSnapshot.Rows.length))) := by
  rcases core_cases env config with
    ⟨e0, hb, heq⟩ |
    ⟨hb, ⟨e0, hsE', heq⟩ |
      ⟨hsE', ⟨hlen', heq⟩ |
        ⟨hlen', ⟨e0, hdump, heq⟩ |
          ⟨ssql, hdump, ⟨e0, hprep, heq⟩ |
            ⟨hprep, ⟨e0, hload, heq⟩ |
              ⟨hload, ⟨e0, hconnD, heq⟩ |
                ⟨hconnD, ⟨fkTr, e0, hdrop, heq⟩ |
                  ⟨fkTr, cmds, hdrop, ⟨stepsTr, e0, hsteps, heq⟩ |
                    ⟨stepsTr, hsteps, heq⟩ |
                    ⟨stepsTr, hsteps, ⟨rcTr, e0, hrc, heq⟩ | ⟨rcTr, hrc, heq⟩⟩⟩⟩⟩⟩⟩⟩⟩⟩
  · rw [hbegin] at hb
    cases hb
  · rw [hsE] at hsE'
    cases hsE'
  · exact heq
  all_goals exact absurd hlen' hlen

/-- Every structure-dump event the core records names the source
database URL and the snapshot identifier extracted from the snapshot
query result. -/
theorem core_dump_args (env : Env) (config : Config) :
    ∀ ev ∈ (pgPartialCopyCore env config).1, ∀ url snap out,
      ev = RunEvent.dumpStructure url snap out →
      url = config.Source.DatabaseURL ∧ snap = coreSnapID env := by
  rcases core_cases env config with
    ⟨e0, hb, heq⟩ |
    ⟨hb, ⟨e0, hsE, heq⟩ |
      ⟨hsE, ⟨hlen, heq⟩ |
        ⟨hlen, ⟨e0, hdump, heq⟩ |
          ⟨ssql, hdump, ⟨e0, hprep, heq⟩ |
            ⟨hprep, ⟨e0, hload, heq⟩ |
              ⟨hload, ⟨e0, hconnD, heq⟩ |
                ⟨hconnD, ⟨fkTr, e0, hdrop, heq⟩ |
                  ⟨fkTr, cmds, hdrop, ⟨stepsTr, e0, hsteps, heq⟩ |
                    ⟨stepsTr, hsteps, heq⟩ |
                    ⟨stepsTr, hsteps, ⟨rcTr, e0, hrc, heq⟩ | ⟨rcTr, hrc, heq⟩⟩⟩⟩⟩⟩⟩⟩⟩⟩ <;>
  rw [heq] <;>
  simp only [] <;>
  intro ev hmem url snap out hev
  · simp at hmem
    subst hmem
    simp at hev
  · simp [coreT4] at hmem
    rcases hmem with hmem | hmem <;> subst hmem <;> simp at hev
  · simp [coreT4] at hmem
    rcases hmem with hmem | hmem <;> subst hmem <;> simp at hev
  · simp [coreT4] at hmem
    rcases hmem with hmem | hmem | hmem <;> subst hmem <;> simp at hev
    obtain ⟨h1, h2, h3⟩ := hev
    exact ⟨h1.symm, h2.symm⟩
  · simp [coreT4, coreT5] at hmem
    rcases hmem with hmem | hmem | hmem | hmem <;> subst hmem <;> simp at hev
    obtain ⟨h1, h2, h3⟩ := hev
    exact ⟨h1.symm, h2.symm⟩
  · simp [coreT4, coreT5, coreT6] at hmem
    rcases hmem with hmem | hmem | hmem | hmem | hmem <;> subst hmem <;> simp at hev
    obtain ⟨h1, h2, h3⟩ := hev
    exact ⟨h1.symm, h2.symm⟩
  · simp [coreT4, coreT5, coreT6, coreT7] at hmem
    rcases hmem with hmem | hmem | hmem | hmem | hmem | hmem <;> subst hmem <;> simp at hev
    obtain ⟨h1, h2, h3⟩ := hev
    exact ⟨h1.symm, h2.symm⟩
  · simp [coreT4, coreT5, coreT6, coreT7, coreT8] at hmem
    rcases hmem with hmem | hmem | hmem | hmem | hmem | hmem | hmem <;> subst hmem <;>
      simp at hev
    obtain ⟨h1, h2, h3⟩ := hev
    exact ⟨h1.symm, h2.symm⟩
  · rcases List.mem_append.mp hmem with hmem | hmem
    · simp [coreT4, coreT5, coreT6, coreT7, coreT8, coreT9] at hmem
      rcases hmem with hmem | hmem | hmem | hmem | hmem | hmem | hmem <;> subst hmem <;>
        simp at hev
      obtain ⟨h1, h2, h3⟩ := hev
      exact ⟨h1.symm, h2.symm⟩
    · have hshape := runSteps_events_shape env config.Steps 0
      rw [hsteps] at hshape
      simp only at hshape
      obtain ⟨i', t', str', sres', hev'⟩ := hshape ev hmem
      subst hev'
      simp at hev
  · rcases List.mem_append.mp hmem with hmem | hmem
    · simp [coreT4, coreT5, coreT6, coreT7, coreT8, coreT9] at hmem
      rcases hmem with hmem | hmem | hmem | hmem | hmem | hmem | hmem <;> subst hmem <;>
        simp at hev
      obtain ⟨h1, h2, h3⟩ := hev
      exact ⟨h1.symm, h2.symm⟩
    · have hshape := runSteps_events_shape env config.Steps 0
      rw [hsteps] at hshape
      simp only at hshape
      obtain ⟨i', t', str', sres', hev'⟩ := hshape ev hmem
      subst hev'
      simp at hev
  · rcases List.mem_append.mp hmem with hmem | hmem
    · rcases List.mem_append.mp hmem with hmem | hmem
      · simp [coreT4, coreT5, coreT6, coreT7, coreT8, coreT9] at hmem
        rcases hmem with hmem | hmem | hmem | hmem | hmem | hmem | hmem <;> subst hmem <;>
          simp at hev
        obtain ⟨h1, h2, h3⟩ := hev
        exact ⟨h1.symm, h2.symm⟩
      · have hshape := runSteps_events_shape env config.Steps 0
        rw [hsteps] at hshape
        simp only at hshape
        obtain ⟨i', t', str', sres', hev'⟩ := hshape ev hmem
        subst hev'
        simp at hev
    · simp at hmem
      subst hmem
      simp at hev
  · rcases List.mem_append.mp hmem with hmem | hmem
    · rcases List.mem_append.mp hmem with hmem | hmem
      · simp [coreT4, coreT5, coreT6, coreT7, coreT8, coreT9] at hmem
        rcases hmem with hmem | hmem | hmem | hmem | hmem | hmem | hmem <;> subst hmem <;>
          simp at hev
        obtain ⟨h1, h2, h3⟩ := hev
        exact ⟨h1.symm, h2.symm⟩
      · have hshape := runSteps_events_shape env config.Steps 0
        rw [hsteps] at hshape
        simp only at hshape
        obtain ⟨i', t', str', sres', hev'⟩ := hshape ev hmem
        subst hev'
        simp at hev
    · simp at hmem
      subst hmem
      simp at hev

/-- C10: if the snapshot query succeeds but returns a row count other
than one, the run aborts with the row-count error before any
destination-side action (no structure dump, no preparation, no
destination connection, no constraint work, no step); and when it
returns exactly one row, every structure dump the run performs uses
exactly the first column of that row as the snapshot identifier, on
the source database URL. -/
theorem c10_snapshot_row_guard (env : Env) (config : Config)
    (hconn : env.connectSource = none)
    (hbt : config.Source.BeforeTransactionSQL = "" ∨
      env.execSourceSQL config.Source.BeforeTransactionSQL = none)
    (hbegin : env.beginTxn = none)
    (hsE : env.exportSnapshot.Err = none) :
    (env.exportSnapshot.Rows.length ≠ 1 →
      (pgPartialCopy env config).2 =
        .err (.base ("expected one row from pg_export_snapshot, got " ++
          toString env.exportSnapshot.Rows.length)) ∧
      ∀ ev ∈ (pgPartialCopy env config).1,
        ev.kind = PhaseKind.connectSource ∨ ev.kind = PhaseKind.beforeTxnSQL ∨
        ev.kind = PhaseKind.beginTxn ∨ ev.kind = PhaseKind.exportSnapshot) ∧
    (∀ row, env.exportSnapshot.Rows = [row] →
      ∀ url snap out, RunEvent.dumpStructure url snap out ∈ (pgPartialCopy env config).1 →
        url = config.Source.DatabaseURL ∧ snap = row.headD "") := by
  have hdump := core_dump_args env config
  rcases pgPartialCopy_cases env config with
    ⟨e0, hcs, heq⟩ | ⟨hcs, ⟨e0, hbt', hex, heq⟩ | ⟨hbt', hex, heq⟩ | ⟨hbt', heq⟩⟩
  · rw [hconn] at hcs
    cases hcs
  · rcases hbt with hbt0 | hbt0
    · exact absurd hbt0 hbt'
    · rw [hbt0] at hex
      cases hex
  · rw [heq]
    simp only []
    constructor
    · intro hlen
      rw [core_snapshot_guard env config hbegin hsE hlen]
      refine ⟨rfl, ?_⟩
      intro ev hmem
      simp [coreT4] at hmem
      rcases hmem with rfl | rfl | rfl | rfl <;> simp [RunEvent.kind]
    · intro row hrow url snap out hmem
      rcases List.mem_cons.mp hmem with hev | hmem
      · cases hev
      rcases List.mem_cons.mp hmem with hev | hmem
      · cases hev
      have := hdump _ hmem url snap out rfl
      refine ⟨this.1, ?_⟩
      rw [this.2]
      simp [coreSnapID, snapshotIDOf, hrow]
  · rw [heq]
    simp only []
    constructor
    · intro hlen
      rw [core_snapshot_guard env config hbegin hsE hlen]
      refine ⟨rfl, ?_⟩
      intro ev hmem
      simp [coreT4] at hmem
      rcases hmem with rfl | rfl | rfl <;> simp [RunEvent.kind]
    · intro row hrow url snap out hmem
      rcases List.mem_cons.mp hmem with hev | hmem
      · cases hev
      have := hdump _ hmem url snap out rfl
      refine ⟨this.1, ?_⟩
      rw [this.2]
      simp [coreSnapID, snapshotIDOf, hrow]

/-- Witness for C10: a snapshot query returning zero rows aborts the
run with the row-count error. -/
theorem c10_snapshot_row_guard_witness :
    (pgPartialCopy envNoSnapshotRow configA).2 =
      .err (.base ("expected one row from pg_export_snapshot, got " ++
        toString (0 : Nat))) :=
  ((c10_snapshot_row_guard envNoSnapshotRow configA rfl (Or.inl rfl) rfl rfl).1
    (by decide)).1

/-- Witness for C8 on a concrete stream event of a plain full-table
step. -/
theorem c8_copy_commands_witness :
    (∃ o, StepEvent.streamCopy "copy a to stdout" "copy a from stdin" (.ok []) =
        .execSQL .beforeCopy stepA.BeforeCopySQL o) ∨
    (∃ o, StepEvent.streamCopy "copy a to stdout" "copy a from stdin" (.ok []) =
        .execSQL .afterCopy stepA.AfterCopySQL o) ∨
    StepEvent.streamCopy "copy a to stdout" "copy a from stdin" (.ok []) =
      .streamCopy (stepCopyToSQL stepA) (stepCopyFromSQL stepA)
        (stepStreamOutcome envBase stepA) :=
  (c8_copy_commands envBase stepA
    (.streamCopy "copy a to stdout" "copy a from stdin" (.ok [])) (by decide)).2

end PgPartialCopy
